import Mathlib

/-!
# Offline-capable real-time client: service worker and connection manager

A shallow embedding of `public/serviceWorker.js` and
`src/services/websocketService.js`.

The browser is modelled by explicit data: the IndexedDB object store is a list of
records, the Cache Storage is a list of named caches, and every event that the
source registers a handler for (`onsuccess` / `onerror`, `oncomplete` /
`onerror`, a resolving or rejecting `fetch`, a throwing constructor) is an
explicit argument saying which of the handlers the browser fires.  Clock
readings (`Date.now()`, `new Date().toISOString()`) are arguments as well.
`console.log` / `console.error` calls have no effect on any modelled state and
are dropped.
-/

namespace RealtimeFrontend

/-! ## JavaScript values -/

/-- A field value of a message object.  Nested arrays and objects are kept as
their JSON text in `raw`: the code never looks inside a payload. -/
inductive JVal where
  | null
  | bool (b : Bool)
  | num (n : Int)
  | str (s : String)
  | raw (json : String)
  deriving DecidableEq, Repr

/-- A plain JavaScript object: its own enumerable properties in insertion order. -/
abbrev JObj := List (String × JVal)

/-- Property read `o[k]`; `none` is `undefined`. -/
def JObj.get : JObj → String → Option JVal
  | [], _ => none
  | (k', v) :: rest, k => if k' = k then some v else JObj.get rest k

/-- Property write as done by an object literal `{...o, k: v}`: an existing key
keeps its position and takes the new value, a new key goes last. -/
def JObj.set : JObj → String → JVal → JObj
  | [], k, v => [(k, v)]
  | (k', v') :: rest, k, v =>
    if k' = k then (k', v) :: rest else (k', v') :: JObj.set rest k v

/-- Outcome of a promise once it settles. -/
inductive Settled (α : Type) where
  | resolved (v : α)
  | rejected (reason : String)
  deriving DecidableEq, Repr

/-! ## IndexedDB object store `connectivity` (keyPath `id`) -/

/-- Values the program keeps in the object store: the pending-message array
under `"pendingMessages"`, a status string under `"connectionStatus"`. -/
inductive DBVal where
  | msgs (l : List JObj)
  | text (s : String)
  deriving DecidableEq, Repr

/-- A record `{ id, value, timestamp }` of the object store. -/
structure Record where
  id : String
  value : DBVal
  timestamp : Nat
  deriving DecidableEq, Repr

/-- Contents of the object store. -/
abbrev DB := List Record

/-- The request `store.get(key)`: the record with that id, `none` for `undefined`. -/
def DB.get : DB → String → Option Record
  | [], _ => none
  | r :: rest, k => if r.id = k then some r else DB.get rest k

/-- The request `store.put(record)`: upsert on the key path `id`. -/
def DB.put : DB → Record → DB
  | [], r => [r]
  | r' :: rest, r => if r'.id = r.id then r :: rest else r' :: DB.put rest r

/-- Which handlers the browser fires during one use of the database.
`openOk`: `indexedDB.open` fires `onsuccess` (otherwise `onerror`);
`reqOk`: the `get` request fires `onsuccess` (otherwise `onerror`);
`txOk`: the transaction fires `oncomplete` (otherwise `onerror`);
`now`: the reading of `Date.now()` stamped on a written record. -/
structure IdbEnv where
  openOk : Bool
  reqOk : Bool
  txOk : Bool
  now : Nat
  deriving DecidableEq, Repr

/-- The function `openDB` of serviceWorker.js: resolves to the database, or
rejects with `"Error opening IndexedDB"` when the open request fires `onerror`. -/
def openDB (e : IdbEnv) (db : DB) : Settled DB :=
  if e.openOk then .resolved db else .rejected "Error opening IndexedDB"

/-- The function `storeData(key, value)` of serviceWorker.js.  A rejection of
`await openDB()` is caught and turned into `false`.  The promise built around
`transaction.oncomplete` / `transaction.onerror` is returned without `await`,
so it settles outside the `try` block: `onerror` rejects the result.
Returns the settled result together with the store contents afterwards. -/
def storeData (e : IdbEnv) (db : DB) (key : String) (value : DBVal) : Settled Bool × DB :=
  match openDB e db with
  | .rejected _ => (.resolved false, db)
  | .resolved d =>
    if e.txOk then (.resolved true, DB.put d ⟨key, value, e.now⟩)
    else (.rejected "transaction error", d)

/-- The function `getData(key)` of serviceWorker.js.  A rejection of
`await openDB()` is caught and turned into `null` (`none`).  The promise built
around `request.onsuccess` / `request.onerror` is returned without `await`:
`onsuccess` resolves to `request.result ? request.result.value : null`,
`onerror` rejects the result. -/
def getData (e : IdbEnv) (db : DB) (key : String) : Settled (Option DBVal) :=
  match openDB e db with
  | .rejected _ => .resolved none
  | .resolved d =>
    if e.reqOk then .resolved ((DB.get d key).map (fun r => r.value))
    else .rejected "request error"

/-! ## Requests, responses and the Cache Storage -/

/-- Does `needle` start the character list? -/
def startsWithChars : List Char → List Char → Bool
  | [], _ => true
  | _ :: _, [] => false
  | a :: as, b :: bs => a == b && startsWithChars as bs

/-- Does `needle` occur in the character list? -/
def includesChars (needle : List Char) : List Char → Bool
  | [] => needle.isEmpty
  | c :: cs => startsWithChars needle (c :: cs) || includesChars needle cs

/-- The method `String.prototype.includes`. -/
def includes (s needle : String) : Bool :=
  includesChars needle.toList s.toList

/-- What the fetch handler reads of `event.request`.  `accept` is
`headers.get("accept")` (`none` for `null`); `json` is the outcome of
`request.clone().json()`: `some o` when the body parses (the own enumerable
properties of the parsed value, which is what the spread copies), `none` when
the promise rejects. -/
structure Request where
  url : String
  method : String
  accept : Option String
  json : Option JObj
  deriving DecidableEq, Repr

/-- Body of a response: text, or a value passed through `JSON.stringify`. -/
inductive Body where
  | text (s : String)
  | json (o : JObj)
  deriving DecidableEq, Repr

/-- What is observable of a `Response`. -/
structure Response where
  status : Nat
  type : String
  contentType : Option String
  body : Body
  deriving DecidableEq, Repr

/-- One cache of the Cache Storage: its name and its request/response pairs. -/
structure NamedCache where
  name : String
  entries : List (Request × Response)
  deriving DecidableEq, Repr

/-- The global `caches`, in creation order. -/
abbrev CacheStorage := List NamedCache

/-- The constant `CACHE_NAME`. -/
def CACHE_NAME : String := "real-time-app-cache-v1"

/-- The request that the string `"/offline.html"` stands for in `caches.match`. -/
def offlineRequest : Request := ⟨"/offline.html", "GET", none, none⟩

/-- The method `cache.match(request)`: a request whose method is not GET
matches nothing; a GET request matches the first entry with its URL. -/
def entriesMatch : List (Request × Response) → Request → Option Response
  | [], _ => none
  | (q, r) :: rest, req =>
    if req.method = "GET" ∧ q.url = req.url then some r else entriesMatch rest req

/-- The method `caches.match(request)`: the first match over all caches, in
creation order; `none` is `undefined`. -/
def cachesMatch : CacheStorage → Request → Option Response
  | [], _ => none
  | c :: rest, req =>
    match entriesMatch c.entries req with
    | some r => some r
    | none => cachesMatch rest req

/-- The storing step of `cache.put(request, response)`: replaces the entry
matching the request, or adds one. -/
def entriesPut : List (Request × Response) → Request → Response → List (Request × Response)
  | [], req, r => [(req, r)]
  | (q, r') :: rest, req, r =>
    if q.url = req.url then (req, r) :: rest else (q, r') :: entriesPut rest req r

/-- The method `cache.put(request, response)`: for a request whose method is
not GET the promise rejects with a `TypeError` and nothing is stored; for a GET
request the pair is stored. -/
def cachePut (es : List (Request × Response)) (req : Request) (r : Response) :
    List (Request × Response) :=
  if req.method = "GET" then entriesPut es req r else es

/-- The chain `caches.open(name).then((cache) => cache.put(request, response))`:
`open` creates the cache when there is none of that name, also when the `put`
that follows stores nothing. -/
def cachesOpenPut : CacheStorage → String → Request → Response → CacheStorage
  | [], name, req, r => [⟨name, cachePut [] req r⟩]
  | c :: rest, name, req, r =>
    if c.name = name then ⟨c.name, cachePut c.entries req r⟩ :: rest
    else c :: cachesOpenPut rest name req r

/-! ## The fetch handler -/

/-- Persistent state of the worker: the Cache Storage and the object store. -/
structure World where
  caches : CacheStorage
  db : DB
  deriving DecidableEq, Repr

/-- What the browser does during one fetch event.  `network`: `fetch(...)`
resolves (`none` for a falsy value) or rejects; `getEnv` / `putEnv`: the
database events during `getData` and during `storeData`; `idNow`, `savedAtIso`:
the readings `Date.now()` and `new Date().toISOString()` stamped on a queued
message; `bodyNow`: the reading `Date.now()` put in a synthesized body. -/
structure FetchEnv where
  network : Settled (Option Response)
  getEnv : IdbEnv
  putEnv : IdbEnv
  idNow : Nat
  savedAtIso : String
  bodyNow : Nat
  deriving DecidableEq, Repr

/-- Outcome of one fetch event: what `respondWith` receives (`none` is
`undefined`), the network requests issued, and the state afterwards. -/
structure FetchResult where
  response : Option Response
  fetched : List Request
  world : World
  deriving DecidableEq, Repr

/-- The entry pushed on the pending array:
`{ ...message, pendingId: Date.now().toString(), savedAt: new Date().toISOString() }`. -/
def pendingEntry (message : JObj) (idNow : Nat) (savedAtIso : String) : JObj :=
  JObj.set (JObj.set message "pendingId" (.str (toString idNow))) "savedAt" (.str savedAtIso)

/-- The expression `stored || []` followed by `.push(entry)`: an absent or falsy
stored value gives a fresh array, an array is extended, and a non-empty string
has no `push` (a `TypeError`). -/
def pushPending : Option DBVal → JObj → Except String (List JObj)
  | none, entry => .ok [entry]
  | some (.msgs l), entry => .ok (l ++ [entry])
  | some (.text s), entry =>
    if s = "" then .ok [entry] else .error "TypeError: pendingMessages.push is not a function"

/-- Response `{ error: "You are offline", offline: true, timestamp }`. -/
def offlineJsonResponse (now : Nat) : Response :=
  ⟨200, "default", some "application/json",
    .json [("error", .str "You are offline"), ("offline", .bool true), ("timestamp", .num now)]⟩

/-- Response `{ status: "queued", message, timestamp }` with status 202. -/
def queuedResponse (now : Nat) : Response :=
  ⟨202, "default", some "application/json",
    .json [("status", .str "queued"),
      ("message", .str "Message saved for delivery when online"), ("timestamp", .num now)]⟩

/-- The generic offline response, status 503, plain text. -/
def genericOfflineResponse : Response :=
  ⟨503, "default", some "text/plain", .text "Network error: You are currently offline"⟩

/-- The `try` block of the WebSocket branch.  `none` means the block was left
through `catch` (the body did not parse, `getData` or `storeData` rejected, or
`push` threw); the result of `storeData` itself is not looked at. -/
def queueOffline (e : FetchEnv) (db : DB) (req : Request) : Option Response × DB :=
  match req.json with
  | none => (none, db)
  | some messageData =>
    match getData e.getEnv db "pendingMessages" with
    | .rejected _ => (none, db)
    | .resolved stored =>
      match pushPending stored (pendingEntry messageData e.idNow e.savedAtIso) with
      | .error _ => (none, db)
      | .ok pendingMessages =>
        match storeData e.putEnv db "pendingMessages" (.msgs pendingMessages) with
        | (.rejected _, db') => (none, db')
        | (.resolved _, db') => (some (queuedResponse e.bodyNow), db')

/-- The `.catch` handler of the fetch handler: the network request failed. -/
def offlineResponse (e : FetchEnv) (w : World) (req : Request) : Option Response × World :=
  if (req.accept.map (fun a => includes a "text/html")).getD false then
    (cachesMatch w.caches offlineRequest, w)
  else if includes req.url "/api/" || includes req.url "/status" then
    (some (offlineJsonResponse e.bodyNow), w)
  else if includes req.url "ws://" && req.method == "POST" then
    match queueOffline e w.db req with
    | (some r, db') => (some r, { w with db := db' })
    | (none, db') => (some genericOfflineResponse, { w with db := db' })
  else
    (some genericOfflineResponse, w)

/-- The `fetch` event handler: cache first, then network, then the offline
responses.  The cache write after a successful fetch, which the handler starts
and does not wait for, is taken as done when the event is over. -/
def fetchHandler (e : FetchEnv) (w : World) (req : Request) : FetchResult :=
  match cachesMatch w.caches req with
  | some response => ⟨some response, [], w⟩
  | none =>
    match e.network with
    | .resolved none => ⟨none, [req], w⟩
    | .resolved (some response) =>
      if response.status ≠ 200 ∨ response.type ≠ "basic" then
        ⟨some response, [req], w⟩
      else
        ⟨some response, [req],
          { w with caches := cachesOpenPut w.caches CACHE_NAME req response }⟩
    | .rejected _ =>
      let (r, w') := offlineResponse e w req
      ⟨r, [req], w'⟩

/-! ## The sync coordinator -/

/-- The message posted to a client after a sync. -/
structure SyncNotice where
  type : String
  count : Nat
  remaining : Nat
  timestamp : Nat
  deriving DecidableEq, Repr

/-- What the browser does during one sync: the database events during
`getData` and `storeData`, and the clients returned by `clients.matchAll()`,
each with the reading of `Date.now()` taken when its notification is built. -/
structure SyncEnv where
  getEnv : IdbEnv
  putEnv : IdbEnv
  clients : List (Nat × Nat)
  deriving DecidableEq, Repr

/-- Outcome of `syncPendingMessages`: the value the promise resolves to (`none`
is `undefined`), the store afterwards, and the messages posted, one per client. -/
structure SyncResult where
  returned : Option Nat
  db : DB
  posted : List (Nat × SyncNotice)
  deriving DecidableEq, Repr

/-- The `for ... of` loop of `syncPendingMessages`, oldest entry first.  The
`try` body is the single statement `successCount++`, which cannot throw, so the
`catch` branch that pushes the message on `failedMessages` is never taken. -/
def syncLoop {α : Type} : List α → Nat × List α → Nat × List α
  | [], acc => acc
  | _ :: rest, (successCount, failedMessages) => syncLoop rest (successCount + 1, failedMessages)

/-- The pending sequence held by a stored value: the stored array, and the
empty sequence when nothing or no array is stored. -/
def pendingOrEmpty : Option DBVal → List JObj
  | some (.msgs l) => l
  | _ => []

/-- The statements of `syncPendingMessages` after the loop: write the failed
entries back, then post the counts to every client.  A rejection of
`storeData` is caught by the function's `catch`, which returns 0. -/
def syncFinish (e : SyncEnv) (db : DB) (successCount : Nat) (failedMessages : List JObj) :
    SyncResult :=
  match storeData e.putEnv db "pendingMessages" (.msgs failedMessages) with
  | (.rejected _, db') => ⟨some 0, db', []⟩
  | (.resolved _, db') =>
    ⟨some successCount, db',
      e.clients.map (fun c =>
        (c.1, ⟨"MESSAGES_SYNCED", successCount, failedMessages.length, c.2⟩))⟩

/-- The function `syncPendingMessages` of serviceWorker.js.  The value read is
`(await getData("pendingMessages")) || []`: nothing stored, or an empty string,
gives the empty array and the early return; an array is looped over entry by
entry; a non-empty string has a non-zero `length` and is looped over character
by character (a character that failed would be kept as the object of its own
properties). -/
def syncPendingMessages (e : SyncEnv) (db : DB) : SyncResult :=
  match getData e.getEnv db "pendingMessages" with
  | .rejected _ => ⟨some 0, db, []⟩
  | .resolved none => ⟨none, db, []⟩
  | .resolved (some (.msgs pendingMessages)) =>
    if pendingMessages.length = 0 then ⟨none, db, []⟩
    else
      let (successCount, failedMessages) := syncLoop pendingMessages (0, [])
      syncFinish e db successCount failedMessages
  | .resolved (some (.text pendingMessages)) =>
    if pendingMessages.length = 0 then ⟨none, db, []⟩
    else
      let (successCount, failedChars) := syncLoop pendingMessages.toList (0, [])
      syncFinish e db successCount
        (failedChars.map (fun c => [("0", JVal.str (String.singleton c))]))

/-! ## The connection manager (`WebSocketService`) -/

/-- The constants `WebSocket.CONNECTING`, `OPEN`, `CLOSING`, `CLOSED`. -/
inductive ReadyState where
  | CONNECTING
  | OPEN
  | CLOSING
  | CLOSED
  deriving DecidableEq, Repr

/-- A `WebSocket` object: its identity (the number of sockets constructed
before it) and its `readyState`. -/
structure Socket where
  id : Nat
  readyState : ReadyState
  deriving DecidableEq, Repr

/-- The fields of the service (`socket`, `isConnecting`, `reconnectAttempts`,
`heartbeatInterval`), the slice of the redux store it dispatches to
(`isConnected`, `error`, `messages`), and the browser state it acts on:
`created` counts the `WebSocket` objects constructed, `timeouts` lists the
delays passed to `setTimeout` (oldest first), `intervals` the handles of the
running `setInterval` timers, `nextTimer` the next timer handle, `sent` the
payloads passed to `socket.send` (with the socket id), `db` the object store. -/
structure App where
  socket : Option Socket
  isConnecting : Bool
  reconnectAttempts : Nat
  heartbeatInterval : Option Nat
  isConnected : Bool
  error : Option String
  messages : List JObj
  created : Nat
  timeouts : List Nat
  intervals : List Nat
  nextTimer : Nat
  sent : List (Nat × JObj)
  db : DB
  deriving DecidableEq, Repr

/-- The field `maxReconnectAttempts`, set once in the constructor. -/
def maxReconnectAttempts : Nat := 5

/-- The field `reconnectInterval` (milliseconds), set once in the constructor. -/
def reconnectInterval : Nat := 3000

/-- The state built by the constructor and the initial redux state, with an
empty object store. -/
def App.initial : App :=
  { socket := none, isConnecting := false, reconnectAttempts := 0, heartbeatInterval := none,
    isConnected := false, error := none, messages := [], created := 0, timeouts := [],
    intervals := [], nextTimer := 1, sent := [], db := [] }

/-- The guard of `connect`: `this.socket` is set and is `OPEN` or `CONNECTING`. -/
def socketLive (s : App) : Bool :=
  match s.socket with
  | some sock => sock.readyState == .OPEN || sock.readyState == .CONNECTING
  | none => false

/-- The guard of `sendMessage`: `this.socket` is set and is `OPEN`. -/
def socketOpen (s : App) : Bool :=
  match s.socket with
  | some sock => sock.readyState == .OPEN
  | none => false

/-- The method `connect`.  `online` is `navigator.onLine`; `ctorOk` says whether
`new WebSocket(url)` returns (a socket in state `CONNECTING`) or throws. -/
def connect (online ctorOk : Bool) (s : App) : App :=
  if socketLive s then s
  else if !online then
    { s with error := some "Failed to connect to the server. You are offline." }
  else if ctorOk then
    { s with isConnecting := true, socket := some ⟨s.created, .CONNECTING⟩,
             created := s.created + 1 }
  else
    { s with isConnecting := false, error := some "Failed to connect to the server." }

/-- The method `stopHeartbeat`; the test `if (this.heartbeatInterval)` is false
for `null` and for a handle 0. -/
def stopHeartbeat (s : App) : App :=
  match s.heartbeatInterval with
  | some h =>
    if h = 0 then s
    else { s with intervals := s.intervals.erase h, heartbeatInterval := none }
  | none => s

/-- The method `startHeartbeat`. -/
def startHeartbeat (s : App) : App :=
  let s := stopHeartbeat s
  { s with heartbeatInterval := some s.nextTimer, intervals := s.intervals ++ [s.nextTimer],
           nextTimer := s.nextTimer + 1 }

/-- The method `onOpen`. -/
def onOpen (s : App) : App :=
  startHeartbeat { s with isConnecting := false, reconnectAttempts := 0, isConnected := true }

/-- The method `onMessage`; `parsed` is the outcome of `JSON.parse(event.data)`. -/
def onMessage (parsed : Option JObj) (s : App) : App :=
  match parsed with
  | some message => { s with messages := s.messages ++ [message] }
  | none => s

/-- The method `attemptReconnect`. -/
def attemptReconnect (s : App) : App :=
  let attempts := s.reconnectAttempts + 1
  { s with reconnectAttempts := attempts,
           timeouts := s.timeouts ++ [reconnectInterval * attempts] }

/-- The method `onClose`; `code` is `event.code`, `online` is `navigator.onLine`. -/
def onClose (code : Nat) (online : Bool) (s : App) : App :=
  let s := stopHeartbeat { s with isConnecting := false, isConnected := false }
  if code ≠ 1000 ∧ online = true ∧ s.reconnectAttempts < maxReconnectAttempts then
    attemptReconnect s
  else s

/-- The method `onError`. -/
def onError (s : App) : App :=
  { s with isConnecting := false, error := some "Connection error. Please try again." }

/-- The method `disconnect`. -/
def disconnect (s : App) : App :=
  stopHeartbeat { s with socket := none }

/-- What the browser does during one `storePendingMessage`.
`hasIndexedDB`: `"indexedDB" in window`; `openOk`, `getOk`, `txOk`: the open
request, the `get` request and the transaction fire their success handler
(otherwise the failure one); `idNow`, `savedAtIso`, `stampNow`: the readings
of `Date.now()`, `new Date().toISOString()` and `Date.now()` in that order. -/
structure SendEnv where
  hasIndexedDB : Bool
  openOk : Bool
  getOk : Bool
  txOk : Bool
  idNow : Nat
  savedAtIso : String
  stampNow : Nat
  deriving DecidableEq, Repr

/-- The method `storePendingMessage`, run until its callbacks are done.  Nothing
is written when IndexedDB is missing, when the open request fires `onerror`,
when the `get` request fails (it has no handler and the transaction aborts),
when `push` throws inside the handler, or when the transaction does not
complete. -/
def storePendingMessage (e : SendEnv) (message : JObj) (db : DB) : DB :=
  if !e.hasIndexedDB then db
  else if !e.openOk then db
  else if !e.getOk then db
  else
    match pushPending ((DB.get db "pendingMessages").map (fun r => r.value))
        (pendingEntry message e.idNow e.savedAtIso) with
    | .error _ => db
    | .ok pendingMessages =>
      if e.txOk then DB.put db ⟨"pendingMessages", .msgs pendingMessages, e.stampNow⟩
      else db

/-- The method `sendMessage`. -/
def sendMessage (e : SendEnv) (message : JObj) (s : App) : App :=
  match s.socket with
  | some sock =>
    if sock.readyState = .OPEN then { s with sent := s.sent ++ [(sock.id, message)] }
    else { s with error := some "Message saved for later delivery",
                  db := storePendingMessage e message s.db }
  | none =>
    { s with error := some "Message saved for later delivery",
             db := storePendingMessage e message s.db }

/-- The array stored under `"pendingMessages"`, empty when there is none. -/
def storedPending (db : DB) : List JObj :=
  pendingOrEmpty ((DB.get db "pendingMessages").map (fun r => r.value))

/-- Events of a reconnect run: a close event with its code and the value of
`navigator.onLine`, the reconnect timer firing `connect`, an error event. -/
inductive RunEvent where
  | close (code : Nat) (online : Bool)
  | timer (online ctorOk : Bool)
  | error
  deriving DecidableEq, Repr

/-- One event of a reconnect run handled by the service. -/
def RunEvent.apply : RunEvent → App → App
  | .close code online, s => onClose code online s
  | .timer online ctorOk, s => connect online ctorOk s
  | .error, s => onError s

/-- A run of events, first event first. -/
def runEvents (es : List RunEvent) (s : App) : App :=
  es.foldl (fun st ev => ev.apply st) s

/-- Is the event a close with a code other than 1000 while online? -/
def RunEvent.isAbnormalClose : RunEvent → Bool
  | .close code online => code != 1000 && online
  | _ => false

/-- Is the event a close at all? -/
def RunEvent.isClose : RunEvent → Bool
  | .close _ _ => true
  | _ => false

/-- The same request handled once per environment, one fetch event after the
other, the worker state threaded through. -/
def serveRepeated : List FetchEnv → World → Request → List FetchResult
  | [], _, _ => []
  | e :: es, w, req => fetchHandler e w req :: serveRepeated es (fetchHandler e w req).world req

/-- The condition under which the `try` block of the WebSocket branch runs to
its `return`: the body parses, `getData` does not reject, the stored value
accepts `push`, and `storeData` does not reject. -/
def tryBlockCompletes (e : FetchEnv) (db : DB) (req : Request) : Prop :=
  req.json ≠ none ∧
  (e.getEnv.openOk = true → e.getEnv.reqOk = true ∧
    ∀ t, (DB.get db "pendingMessages").map (fun r => r.value) = some (.text t) → t = "") ∧
  (e.putEnv.openOk = true → e.putEnv.txOk = true)

/-! ## Everything that can happen to the connection manager -/

/-- The callback passed to `setInterval` by `startHeartbeat`: a ping is sent
when the socket is set and `OPEN`; `isoNow` is `new Date().toISOString()`. -/
def heartbeatTick (e : SendEnv) (isoNow : String) (s : App) : App :=
  if socketOpen s then
    sendMessage e [("type", .str "ping"), ("timestamp", .str isoNow)] s
  else s

/-- The browser changing the `readyState` of the socket with identity `target`,
which it does before it dispatches the socket's event; a socket the service no
longer owns is not part of the state. -/
def markReady (target : Nat) (rs : ReadyState) (s : App) : App :=
  match s.socket with
  | some sock => if sock.id = target then { s with socket := some ⟨target, rs⟩ } else s
  | none => s

/-- The listener for the window event `online`: it calls `connect`. -/
def onlineListener (online ctorOk : Bool) (s : App) : App :=
  connect online ctorOk s

/-- The listener for the window event `offline`: it dispatches
`setConnectionStatus(false)` and nothing else. -/
def offlineListener (s : App) : App :=
  { s with isConnected := false }

/-- The operations and events of the connection manager: calls of `connect`
(by the application or by a reconnect timer), `disconnect` and `sendMessage`,
the socket events with the socket they are fired at, a tick of the heartbeat
timer, and the window events `online` and `offline`. -/
inductive Event where
  | connect (online ctorOk : Bool)
  | opened (target : Nat)
  | message (parsed : Option JObj)
  | closed (target : Nat) (code : Nat) (online : Bool)
  | error
  | disconnect
  | send (e : SendEnv) (message : JObj)
  | tick (e : SendEnv) (isoNow : String)
  | online (navOnline ctorOk : Bool)
  | offline
  deriving DecidableEq, Repr

/-- One event handled by the service.  A tick only happens while an interval
timer runs. -/
def applyEvent : Event → App → App
  | .connect online ctorOk, s => connect online ctorOk s
  | .opened target, s => onOpen (markReady target .OPEN s)
  | .message parsed, s => onMessage parsed s
  | .closed target code online, s => onClose code online (markReady target .CLOSED s)
  | .error, s => onError s
  | .disconnect, s => disconnect s
  | .send e message, s => sendMessage e message s
  | .tick e isoNow, s => if s.intervals = [] then s else heartbeatTick e isoNow s
  | .online navOnline ctorOk, s => onlineListener navOnline ctorOk s
  | .offline, s => offlineListener s

/-- The state reached from `s` by a sequence of events, first event first. -/
def reach (es : List Event) (s : App) : App :=
  es.foldl (fun st ev => applyEvent ev st) s

/-- Is the event a call of `disconnect` or the window event `offline`? -/
def Event.detaches : Event → Bool
  | .disconnect => true
  | .offline => true
  | _ => false

/-! ## Install and activate -/

/-- The constant `urlsToCache`. -/
def urlsToCache : List String :=
  ["/", "/index.html", "/static/js/main.chunk.js", "/static/js/0.chunk.js",
    "/static/js/bundle.js", "/manifest.json", "/offline.html"]

/-- The method `caches.open(name)`: the cache of that name, created empty (last
in creation order) when there is none. -/
def cachesOpen (cs : CacheStorage) (name : String) : CacheStorage :=
  if cs.any (fun c => c.name == name) then cs else cs ++ [⟨name, []⟩]

/-- The entries written by a successful `cache.addAll(urls)`, one response per
URL, in order. -/
def entriesAddAll : List (Request × Response) → List String → List Response →
    List (Request × Response)
  | es, url :: urls, r :: rs => entriesAddAll (entriesPut es ⟨url, "GET", none, none⟩ r) urls rs
  | es, _, _ => es

/-- The method `cache.addAll(urls)` on the cache called `name`.  `responses` is
`some` list of the fetched responses when every request succeeds with an ok
status, and `none` otherwise; then the promise rejects and nothing is written. -/
def cachesAddAll (cs : CacheStorage) (name : String) (urls : List String)
    (responses : Option (List Response)) : Bool × CacheStorage :=
  match responses with
  | none => (false, cs)
  | some rs =>
    (true, cs.map (fun c => if c.name = name then ⟨c.name, entriesAddAll c.entries urls rs⟩ else c))

/-- The `install` handler: `caches.open(CACHE_NAME)` and then
`cache.addAll(urlsToCache)`.  Returns whether the promise given to `waitUntil`
is fulfilled, and the Cache Storage afterwards. -/
def install (responses : Option (List Response)) (cs : CacheStorage) : Bool × CacheStorage :=
  cachesAddAll (cachesOpen cs CACHE_NAME) CACHE_NAME urlsToCache responses

/-- The method `caches.delete(name)`. -/
def cachesDelete (cs : CacheStorage) (name : String) : CacheStorage :=
  cs.filter (fun c => c.name != name)

/-- The local `cacheWhitelist` of the `activate` handler. -/
def cacheWhitelist : List String := [CACHE_NAME]

/-- The `activate` handler: every name of `caches.keys()` that
`cacheWhitelist.indexOf` does not find is deleted. -/
def activate (cs : CacheStorage) : CacheStorage :=
  (cs.map (fun c => c.name)).foldl
    (fun acc cacheName => if cacheWhitelist.contains cacheName then acc
      else cachesDelete acc cacheName) cs

/-- The install/activate sequence of one worker version: the Cache Storage
after both handlers have run.  (The browser activates a worker whose install
promise was fulfilled; the result is given for either outcome of the
precaching.) -/
def installActivate (responses : Option (List Response)) (cs : CacheStorage) : CacheStorage :=
  activate (install responses cs).2

/-- Is the event a socket open or close event? -/
def Event.restores : Event → Bool
  | .opened _ => true
  | .closed _ _ _ => true
  | _ => false

/-- Does the history end in a stretch without `disconnect` and `offline` that
starts at the initial state or at an open or close event? -/
def settled (es : List Event) : Bool :=
  es.foldl (fun b ev => if ev.restores then true else if ev.detaches then false else b) true

/-- The part of the state the heartbeat claim is about: the handle kept by the
service, the running interval timers, the next handle, and the mirrored
`isConnected` flag. -/
def hbView (s : App) : Option Nat × List Nat × Nat × Bool :=
  (s.heartbeatInterval, s.intervals, s.nextTimer, s.isConnected)

/-- The timer bookkeeping is consistent: handles start at 1, and the running
interval timers are exactly the one handle the service keeps, if it keeps one. -/
def timerConsistent (s : App) : Prop :=
  1 ≤ s.nextTimer ∧
  ((s.heartbeatInterval = none ∧ s.intervals = []) ∨
    (∃ h, h ≠ 0 ∧ s.heartbeatInterval = some h ∧ s.intervals = [h]))

/-- Reads a list of decimal digit characters back as a number (most
significant digit first); used to show that `toString` on `Nat` is injective. -/
def decimalValue (cs : List Char) : Nat :=
  cs.foldl (fun acc c => 10 * acc + (c.toNat - 48)) 0

/-! # Theorems -/

/-! ## Helper lemmas: objects, the object store, decimal strings -/

theorem JObj.get_set_same (o : JObj) (k : String) (v : JVal) :
    JObj.get (JObj.set o k v) k = some v := by
  induction o with
  | nil => simp [JObj.set, JObj.get]
  | cons p rest ih =>
    obtain ⟨k', v'⟩ := p
    by_cases h : k' = k
    · simp [JObj.set, JObj.get, h]
    · simp [JObj.set, JObj.get, h, ih]

theorem JObj.get_set_other (o : JObj) (k k2 : String) (v : JVal) (hne : k ≠ k2) :
    JObj.get (JObj.set o k v) k2 = JObj.get o k2 := by
  induction o with
  | nil => simp [JObj.set, JObj.get, hne]
  | cons p rest ih =>
    obtain ⟨k', v'⟩ := p
    by_cases h : k' = k
    · subst h
      simp [JObj.set, JObj.get, hne]
    · by_cases h2 : k' = k2
      · subst h2
        simp [JObj.set, JObj.get, h]
      · simp [JObj.set, JObj.get, h, h2, ih]

theorem DB.get_put_same (db : DB) (r : Record) : DB.get (DB.put db r) r.id = some r := by
  induction db with
  | nil => simp [DB.put, DB.get]
  | cons r' rest ih =>
    by_cases h : r'.id = r.id
    · simp [DB.put, DB.get, h]
    · simp [DB.put, DB.get, h, ih]

theorem DB.get_put_other (db : DB) (r : Record) (k : String) (hne : r.id ≠ k) :
    DB.get (DB.put db r) k = DB.get db k := by
  induction db with
  | nil => simp [DB.put, DB.get, hne]
  | cons r' rest ih =>
    by_cases h : r'.id = r.id
    · have h' : r'.id ≠ k := by rw [h]; exact hne
      simp [DB.put, DB.get, h, hne, h']
    · by_cases h2 : r'.id = k
      · subst h2
        simp [DB.put, DB.get, h]
      · simp [DB.put, DB.get, h, h2, ih]

theorem decimalValue_append (xs ys : List Char) :
    decimalValue (xs ++ ys) = ys.foldl (fun acc c => 10 * acc + (c.toNat - 48)) (decimalValue xs) := by
  simp [decimalValue, List.foldl_append]

theorem toDigitsCore_append (fuel : Nat) : ∀ (n : Nat) (ds : List Char),
    Nat.toDigitsCore 10 fuel n ds = Nat.toDigitsCore 10 fuel n [] ++ ds := by
  induction fuel with
  | zero => intro n ds; simp [Nat.toDigitsCore]
  | succ f ih =>
    intro n ds
    simp only [Nat.toDigitsCore]
    by_cases h : n / 10 = 0
    · simp [h]
    · simp only [h, if_false]
      rw [ih (n / 10) (Nat.digitChar (n % 10) :: ds), ih (n / 10) [Nat.digitChar (n % 10)]]
      simp

theorem digitChar_value (k : Nat) (hk : k < 10) : (Nat.digitChar k).toNat - 48 = k := by
  interval_cases k <;> rfl

theorem decimalValue_toDigitsCore (fuel : Nat) : ∀ n : Nat, n < fuel →
    decimalValue (Nat.toDigitsCore 10 fuel n []) = n := by
  induction fuel with
  | zero => intro n hn; omega
  | succ f ih =>
    intro n hn
    simp only [Nat.toDigitsCore]
    by_cases h : n / 10 = 0
    · have hlt : n < 10 := by omega
      simp only [h, if_true]
      have hmod : n % 10 = n := Nat.mod_eq_of_lt hlt
      simp [decimalValue, hmod, digitChar_value n hlt]
    · simp only [h, if_false]
      rw [toDigitsCore_append f (n / 10) [Nat.digitChar (n % 10)], decimalValue_append]
      have hf : n / 10 < f := by omega
      rw [ih (n / 10) hf]
      simp only [List.foldl]
      rw [digitChar_value (n % 10) (Nat.mod_lt n (by decide))]
      omega

theorem natToString_injective (a b : Nat) (h : toString a = toString b) : a = b := by
  have h1 : (Nat.toDigits 10 a).asString = (Nat.toDigits 10 b).asString := h
  have h2 : Nat.toDigits 10 a = Nat.toDigits 10 b := by
    have := congrArg String.toList h1
    simpa using this
  have ha := decimalValue_toDigitsCore (a + 1) a (Nat.lt_succ_self a)
  have hb := decimalValue_toDigitsCore (b + 1) b (Nat.lt_succ_self b)
  unfold Nat.toDigits at h2
  rw [h2] at ha
  omega

/-! ## C1: sending while the socket is not open -/

theorem storePendingMessage_ok (e : SendEnv) (m : JObj) (db : DB)
    (h1 : e.hasIndexedDB = true) (h2 : e.openOk = true) (h3 : e.getOk = true)
    (h4 : e.txOk = true)
    (harr : ∀ t, (DB.get db "pendingMessages").map (fun r => r.value) = some (.text t) → t = "") :
    storedPending (storePendingMessage e m db)
      = storedPending db ++ [pendingEntry m e.idNow e.savedAtIso] := by
  unfold storePendingMessage storedPending
  simp only [h1, h2, h3, h4, Bool.not_true, Bool.false_eq_true, if_false, if_true]
  cases hg : (DB.get db "pendingMessages").map (fun r => r.value) with
  | none =>
    simp only [pushPending]
    rw [DB.get_put_same]
    simp [pendingOrEmpty]
  | some v =>
    cases v with
    | msgs l =>
      simp only [pushPending]
      rw [DB.get_put_same]
      simp [pendingOrEmpty]
    | text t =>
      have ht : t = "" := harr t hg
      subst ht
      simp only [pushPending, if_true]
      rw [DB.get_put_same]
      simp [pendingOrEmpty]

theorem storePendingMessage_unavailable (e : SendEnv) (m : JObj) (db : DB)
    (h : e.hasIndexedDB = false ∨ e.openOk = false ∨ e.getOk = false ∨ e.txOk = false) :
    storePendingMessage e m db = db := by
  unfold storePendingMessage
  rcases h with h | h | h | h
  · simp [h]
  · simp [h]
  · simp [h]
  · simp only [h, Bool.false_eq_true, if_false]
    split_ifs
    · rfl
    · rfl
    · rfl
    · split <;> rfl

theorem sendMessage_closed_db (e : SendEnv) (m : JObj) (s : App)
    (hclosed : socketOpen s = false) :
    (sendMessage e m s).db = storePendingMessage e m s.db ∧
    (sendMessage e m s).error = some "Message saved for later delivery" := by
  unfold sendMessage
  unfold socketOpen at hclosed
  cases hs : s.socket with
  | none => simp
  | some sock =>
    rw [hs] at hclosed
    have hne : sock.readyState ≠ .OPEN := by
      intro h
      simp [h] at hclosed
    simp [hne]

/-- C1 (amended): `sendMessage` while the socket is not open is total and
reports "Message saved for later delivery".  When IndexedDB is present and the
open request, the `get` request and the transaction all succeed (the stored
value being absent, an array or falsy), the stored `"pendingMessages"` sequence
becomes the old sequence followed by exactly one entry: the payload's fields
with `pendingId` set to the decimal string of `Date.now()` and `savedAt` set to
the ISO time.  That `pendingId` differs from the `pendingId` of every stored
entry stamped at another millisecond.  When IndexedDB is missing or one of the
steps fails, the store is left as it was. -/
theorem sendMessage_closed_enqueues (e : SendEnv) (m : JObj) (s : App)
    (hclosed : socketOpen s = false) :
    (sendMessage e m s).error = some "Message saved for later delivery" ∧
    (e.hasIndexedDB = true → e.openOk = true → e.getOk = true → e.txOk = true →
      (∀ t, (DB.get s.db "pendingMessages").map (fun r => r.value) = some (.text t) → t = "") →
      storedPending (sendMessage e m s).db
        = storedPending s.db ++ [pendingEntry m e.idNow e.savedAtIso]) ∧
    JObj.get (pendingEntry m e.idNow e.savedAtIso) "pendingId" = some (.str (toString e.idNow)) ∧
    JObj.get (pendingEntry m e.idNow e.savedAtIso) "savedAt" = some (.str e.savedAtIso) ∧
    (∀ k, k ≠ "pendingId" → k ≠ "savedAt" →
      JObj.get (pendingEntry m e.idNow e.savedAtIso) k = JObj.get m k) ∧
    (∀ old ∈ storedPending s.db, ∀ t, t ≠ e.idNow →
      JObj.get old "pendingId" = some (.str (toString t)) →
      JObj.get old "pendingId" ≠ JObj.get (pendingEntry m e.idNow e.savedAtIso) "pendingId") ∧
    ((e.hasIndexedDB = false ∨ e.openOk = false ∨ e.getOk = false ∨ e.txOk = false) →
      (sendMessage e m s).db = s.db) := by
  obtain ⟨hdb, herr⟩ := sendMessage_closed_db e m s hclosed
  have hid : JObj.get (pendingEntry m e.idNow e.savedAtIso) "pendingId"
      = some (.str (toString e.idNow)) := by
    unfold pendingEntry
    rw [JObj.get_set_other _ "savedAt" "pendingId" _ (by decide), JObj.get_set_same]
  refine ⟨herr, ?_, hid, ?_, ?_, ?_, ?_⟩
  · intro h1 h2 h3 h4 harr
    rw [hdb]
    exact storePendingMessage_ok e m s.db h1 h2 h3 h4 harr
  · unfold pendingEntry
    rw [JObj.get_set_same]
  · intro k hk1 hk2
    unfold pendingEntry
    rw [JObj.get_set_other _ "savedAt" k _ (Ne.symm hk2),
      JObj.get_set_other _ "pendingId" k _ (Ne.symm hk1)]
  · intro old _ t ht hold heq
    rw [hid, hold] at heq
    have h1 : toString t = toString e.idNow := by
      injection heq with h2
      injection h2
    exact ht (natToString_injective t e.idNow h1)
  · intro h
    rw [hdb]
    exact storePendingMessage_unavailable e m s.db h

/-- Witness for C1 (amended): a chat message sent from the initial state, at
clock reading 1700000000000, with a working IndexedDB. -/
theorem sendMessage_closed_enqueues_witness :
    socketOpen App.initial = false ∧
    storedPending (sendMessage ⟨true, true, true, true, 1700000000000, "2023-11-14T22:13:20.000Z",
        1700000000000⟩ [("type", .str "message"), ("content", .str "hi")] App.initial).db
      = storedPending App.initial.db ++
          [pendingEntry [("type", .str "message"), ("content", .str "hi")] 1700000000000
            "2023-11-14T22:13:20.000Z"] :=
  ⟨rfl,
    (sendMessage_closed_enqueues
      ⟨true, true, true, true, 1700000000000, "2023-11-14T22:13:20.000Z", 1700000000000⟩
      [("type", .str "message"), ("content", .str "hi")] App.initial rfl).2.1 rfl rfl rfl rfl
      (by intro t ht; simp [App.initial, DB.get] at ht)⟩

/-- C1 (counterexample): the claim as stated fails at two inputs.  Without
IndexedDB in the window a send from the initial state appends nothing; and two
consecutive sends within the same millisecond (clock reading 7) append two
entries carrying the same `pendingId`. -/
theorem sendMessage_closed_counterexample :
    (¬ ∃ entry : JObj,
        storedPending (sendMessage ⟨false, true, true, true, 7, "t", 7⟩
            [("content", .str "a")] App.initial).db
          = storedPending App.initial.db ++ [entry]) ∧
    (¬ ∃ entry : JObj,
        storedPending (sendMessage ⟨true, true, true, true, 7, "t", 7⟩ [("content", .str "b")]
            (sendMessage ⟨true, true, true, true, 7, "t", 7⟩ [("content", .str "a")]
              App.initial)).db
          = storedPending (sendMessage ⟨true, true, true, true, 7, "t", 7⟩
              [("content", .str "a")] App.initial).db ++ [entry] ∧
        ∀ old ∈ storedPending (sendMessage ⟨true, true, true, true, 7, "t", 7⟩
              [("content", .str "a")] App.initial).db,
          JObj.get old "pendingId" ≠ JObj.get entry "pendingId") := by
  have hfirst : storedPending (sendMessage ⟨true, true, true, true, 7, "t", 7⟩
      [("content", .str "a")] App.initial).db
      = [[("content", .str "a"), ("pendingId", .str "7"), ("savedAt", .str "t")]] := by decide
  have hsecond : storedPending (sendMessage ⟨true, true, true, true, 7, "t", 7⟩
      [("content", .str "b")]
      (sendMessage ⟨true, true, true, true, 7, "t", 7⟩ [("content", .str "a")] App.initial)).db
      = [[("content", .str "a"), ("pendingId", .str "7"), ("savedAt", .str "t")],
         [("content", .str "b"), ("pendingId", .str "7"), ("savedAt", .str "t")]] := by decide
  have hnone : storedPending (sendMessage ⟨false, true, true, true, 7, "t", 7⟩
      [("content", .str "a")] App.initial).db = [] := by decide
  constructor
  · rintro ⟨entry, h⟩
    rw [hnone] at h
    simp [storedPending, App.initial, DB.get, pendingOrEmpty] at h
  · rintro ⟨entry, h, hdistinct⟩
    rw [hfirst] at h hdistinct
    rw [hsecond] at h
    have hentry : entry = [("content", .str "b"), ("pendingId", .str "7"), ("savedAt", .str "t")] := by
      simp at h
      exact h.symm
    subst hentry
    exact hdistinct _ (List.mem_singleton.mpr rfl) (by decide)

/-! ## C2: draining the pending queue -/

theorem syncLoop_counts {α : Type} (l : List α) : ∀ (c : Nat) (f : List α),
    syncLoop l (c, f) = (c + l.length, f) := by
  induction l with
  | nil => intro c f; simp [syncLoop]
  | cons m rest ih =>
    intro c f
    simp only [syncLoop, List.length_cons]
    rw [ih]
    congr 1
    omega

/-- With a working object store, every drain of a non-empty queue counts all
entries as succeeded, writes back the empty array and notifies every client
with `count` = the queue length and `remaining` = 0. -/
theorem syncPendingMessages_healthy (e : SyncEnv) (db : DB) (l : List JObj)
    (hget : e.getEnv.openOk = true ∧ e.getEnv.reqOk = true)
    (hput : e.putEnv.openOk = true ∧ e.putEnv.txOk = true)
    (hstored : (DB.get db "pendingMessages").map (fun r => r.value) = some (.msgs l))
    (hne : l ≠ []) :
    syncPendingMessages e db =
      ⟨some l.length, DB.put db ⟨"pendingMessages", .msgs [], e.putEnv.now⟩,
        e.clients.map (fun c => (c.1, ⟨"MESSAGES_SYNCED", l.length, 0, c.2⟩))⟩ := by
  have hlen : l.length ≠ 0 := by
    intro h
    exact hne (List.length_eq_zero.mp h)
  unfold syncPendingMessages syncFinish getData storeData openDB
  simp only [hget.1, hget.2, hput.1, hput.2, if_true, hstored, hlen, if_false,
    syncLoop_counts, Nat.zero_add, List.length_nil]

/-- C2 (code at the failing input): for every three pending messages
`m1, m2, m3` and a working store, `syncPendingMessages` transmits nothing,
counts all three as succeeded, writes back the empty array and notifies
`count = 3, remaining = 0`; no outcome keeps `m2` in the queue. -/
theorem syncPendingMessages_three (m1 m2 m3 : JObj) (t0 t1 t2 : Nat)
    (clients : List (Nat × Nat)) :
    syncPendingMessages ⟨⟨true, true, true, t1⟩, ⟨true, true, true, t2⟩, clients⟩
        [⟨"pendingMessages", .msgs [m1, m2, m3], t0⟩]
      = ⟨some 3, [⟨"pendingMessages", .msgs [], t2⟩],
          clients.map (fun c => (c.1, ⟨"MESSAGES_SYNCED", 3, 0, c.2⟩))⟩ := by
  simp [syncPendingMessages, syncFinish, getData, storeData, openDB, DB.get, DB.put, syncLoop]

/-! ## C3: reconnect backoff -/

theorem stopHeartbeat_attempts (s : App) :
    (stopHeartbeat s).reconnectAttempts = s.reconnectAttempts ∧
    (stopHeartbeat s).timeouts = s.timeouts := by
  unfold stopHeartbeat
  cases s.heartbeatInterval with
  | none => simp
  | some h =>
    simp only
    split_ifs <;> simp

theorem connect_attempts (online ctorOk : Bool) (s : App) :
    (connect online ctorOk s).reconnectAttempts = s.reconnectAttempts ∧
    (connect online ctorOk s).timeouts = s.timeouts := by
  unfold connect
  split_ifs <;> simp

theorem onClose_schedules (code : Nat) (s : App) (hcode : code ≠ 1000)
    (hlt : s.reconnectAttempts < 5) :
    (onClose code true s).reconnectAttempts = s.reconnectAttempts + 1 ∧
    (onClose code true s).timeouts = s.timeouts ++ [3000 * (s.reconnectAttempts + 1)] := by
  have h := stopHeartbeat_attempts { s with isConnecting := false, isConnected := false }
  simp only [onClose, maxReconnectAttempts, attemptReconnect, reconnectInterval, h.1, h.2]
  simp [hcode, hlt]

theorem onClose_idle (code : Nat) (online : Bool) (s : App)
    (h : code = 1000 ∨ online = false ∨ 5 ≤ s.reconnectAttempts) :
    (onClose code online s).reconnectAttempts = s.reconnectAttempts ∧
    (onClose code online s).timeouts = s.timeouts := by
  have hs := stopHeartbeat_attempts { s with isConnecting := false, isConnected := false }
  have hcond : ¬ (code ≠ 1000 ∧ online = true ∧
      (stopHeartbeat { s with isConnecting := false, isConnected := false }).reconnectAttempts
        < maxReconnectAttempts) := by
    rw [hs.1]
    unfold maxReconnectAttempts
    rintro ⟨h1, h2, h3⟩
    rcases h with h | h | h
    · exact h1 h
    · simp [h] at h2
    · simp at h3
      omega
  simp only [onClose, hcond, if_false]
  exact hs

theorem runEvents_cons (ev : RunEvent) (es : List RunEvent) (s : App) :
    runEvents (ev :: es) s = runEvents es (ev.apply s) := by
  simp [runEvents]

theorem runEvents_backoff (es : List RunEvent) : ∀ (s : App),
    s.reconnectAttempts ≤ 5 →
    (∀ ev ∈ es, ev.isClose = true → ev.isAbnormalClose = true) →
    (runEvents es s).reconnectAttempts = min (s.reconnectAttempts + es.countP RunEvent.isClose) 5 ∧
    (runEvents es s).timeouts = s.timeouts ++
      (List.range (min (s.reconnectAttempts + es.countP RunEvent.isClose) 5
          - s.reconnectAttempts)).map
        (fun i => 3000 * (s.reconnectAttempts + i + 1)) := by
  induction es with
  | nil =>
    intro s hs _
    simp [runEvents, Nat.min_eq_left hs]
  | cons ev rest ih =>
    intro s hs hall
    have hrest : ∀ ev ∈ rest, ev.isClose = true → ev.isAbnormalClose = true :=
      fun ev hev => hall ev (List.mem_cons_of_mem _ hev)
    rw [runEvents_cons]
    cases ev with
    | close code online =>
      have hab := hall (.close code online) (List.mem_cons_self _ _) rfl
      simp only [RunEvent.isAbnormalClose, Bool.and_eq_true, bne_iff_ne] at hab
      obtain ⟨hcode, honline⟩ := hab
      subst honline
      have hcount : (RunEvent.close code true :: rest).countP RunEvent.isClose
          = rest.countP RunEvent.isClose + 1 := by
        simp [List.countP_cons, RunEvent.isClose]
      rw [hcount]
      by_cases hlt : s.reconnectAttempts < 5
      · obtain ⟨ha, ht⟩ := onClose_schedules code s hcode hlt
        have hle : (onClose code true s).reconnectAttempts ≤ 5 := by omega
        obtain ⟨ih1, ih2⟩ := ih (onClose code true s) hle hrest
        simp only [RunEvent.apply]
        rw [ih1, ih2, ha, ht]
        constructor
        · congr 1
          omega
        · have hsplit : min (s.reconnectAttempts + (rest.countP RunEvent.isClose + 1)) 5
              - s.reconnectAttempts
              = (min (s.reconnectAttempts + 1 + rest.countP RunEvent.isClose) 5
                  - (s.reconnectAttempts + 1)) + 1 := by omega
          rw [hsplit, List.range_succ_eq_map, List.map_cons, List.map_map, List.append_assoc]
          simp only [List.singleton_append, Nat.add_zero]
          congr 2
          apply List.map_congr_left
          intro i _
          simp only [Function.comp]
          omega
      · have h5 : s.reconnectAttempts = 5 := by omega
        obtain ⟨ha, ht⟩ := onClose_idle code true s (Or.inr (Or.inr (by omega)))
        have hle : (onClose code true s).reconnectAttempts ≤ 5 := by omega
        obtain ⟨ih1, ih2⟩ := ih (onClose code true s) hle hrest
        simp only [RunEvent.apply]
        rw [ih1, ih2, ha, ht, h5]
        constructor
        · omega
        · have e1 : min (5 + rest.countP RunEvent.isClose) 5 - 5 = 0 := by omega
          have e2 : min (5 + (rest.countP RunEvent.isClose + 1)) 5 - 5 = 0 := by omega
          rw [e1, e2]
    | timer online ctorOk =>
      obtain ⟨ha, ht⟩ := connect_attempts online ctorOk s
      have hle : (connect online ctorOk s).reconnectAttempts ≤ 5 := by omega
      obtain ⟨ih1, ih2⟩ := ih (connect online ctorOk s) hle hrest
      simp only [RunEvent.apply]
      rw [ih1, ih2, ha, ht]
      simp [List.countP_cons, RunEvent.isClose]
    | error =>
      have hle : (onError s).reconnectAttempts ≤ 5 := hs
      obtain ⟨ih1, ih2⟩ := ih (onError s) hle hrest
      simp only [RunEvent.apply]
      rw [ih1, ih2]
      simp [List.countP_cons, RunEvent.isClose, onError]

/-- C3: start from `reconnectAttempts = 0` and take any run of close events
with a code other than 1000 while online, interleaved in any way with firings
of the reconnect timer (`connect`) and error events, but with no open.  If the
run so far holds `k - 1` closes, the next such close is the `k`-th: for
`k ≤ 5` it sets `reconnectAttempts` to `k` and schedules one timeout of exactly
`3000 * k` ms; for `k > 5` it schedules nothing and leaves `reconnectAttempts`
at 5.  The counter never exceeds `maxReconnectAttempts = 5`, and the delays
scheduled over the whole run are `3000, 6000, ...` up to `3000 * min k 5`.
A close with code 1000, or while offline, schedules nothing and leaves
`reconnectAttempts` unchanged, in every state. -/
theorem reconnect_backoff (es : List RunEvent) (s : App) (code : Nat)
    (h0 : s.reconnectAttempts = 0)
    (hall : ∀ ev ∈ es, ev.isClose = true → ev.isAbnormalClose = true)
    (hcode : code ≠ 1000) :
    (es.countP RunEvent.isClose + 1 ≤ 5 →
      (onClose code true (runEvents es s)).reconnectAttempts = es.countP RunEvent.isClose + 1 ∧
      (onClose code true (runEvents es s)).timeouts
        = (runEvents es s).timeouts ++ [3000 * (es.countP RunEvent.isClose + 1)]) ∧
    (5 < es.countP RunEvent.isClose + 1 →
      (onClose code true (runEvents es s)).reconnectAttempts = 5 ∧
      (onClose code true (runEvents es s)).timeouts = (runEvents es s).timeouts) ∧
    (runEvents es s).reconnectAttempts ≤ maxReconnectAttempts ∧
    (onClose code true (runEvents es s)).reconnectAttempts ≤ maxReconnectAttempts ∧
    (onClose code true (runEvents es s)).timeouts
      = s.timeouts ++ (List.range (min (es.countP RunEvent.isClose + 1) 5)).map
          (fun i => reconnectInterval * (i + 1)) ∧
    (∀ (c : Nat) (online : Bool) (st : App), c = 1000 ∨ online = false →
      (onClose c online st).reconnectAttempts = st.reconnectAttempts ∧
      (onClose c online st).timeouts = st.timeouts) := by
  have hs : s.reconnectAttempts ≤ 5 := by omega
  obtain ⟨hrun, hrunT⟩ := runEvents_backoff es s hs hall
  rw [h0, Nat.zero_add] at hrun
  have hall2 : ∀ ev ∈ es ++ [RunEvent.close code true],
      ev.isClose = true → ev.isAbnormalClose = true := by
    intro ev hev hc
    rcases List.mem_append.mp hev with h | h
    · exact hall ev h hc
    · rw [List.mem_singleton.mp h]
      simp [RunEvent.isAbnormalClose, hcode]
  obtain ⟨_, hfullT⟩ := runEvents_backoff (es ++ [RunEvent.close code true]) s hs hall2
  have hfold : runEvents (es ++ [RunEvent.close code true]) s
      = onClose code true (runEvents es s) := by
    simp [runEvents, List.foldl_append, RunEvent.apply]
  have hcnt : (es ++ [RunEvent.close code true]).countP RunEvent.isClose
      = es.countP RunEvent.isClose + 1 := by
    simp [List.countP_append, RunEvent.isClose]
  rw [hfold, hcnt, h0] at hfullT
  simp only [Nat.zero_add, Nat.sub_zero] at hfullT
  refine ⟨?_, ?_, ?_, ?_, ?_, ?_⟩
  · intro hk
    have hlt : (runEvents es s).reconnectAttempts < 5 := by omega
    obtain ⟨ha, ht⟩ := onClose_schedules code (runEvents es s) hcode hlt
    rw [ha, ht, hrun]
    have : min (es.countP RunEvent.isClose) 5 = es.countP RunEvent.isClose := by omega
    rw [this]
    exact ⟨rfl, rfl⟩
  · intro hk
    have hge : 5 ≤ (runEvents es s).reconnectAttempts := by omega
    obtain ⟨ha, ht⟩ := onClose_idle code true (runEvents es s) (Or.inr (Or.inr hge))
    rw [ha, ht, hrun]
    exact ⟨by omega, rfl⟩
  · unfold maxReconnectAttempts
    omega
  · unfold maxReconnectAttempts
    by_cases hlt : (runEvents es s).reconnectAttempts < 5
    · rw [(onClose_schedules code (runEvents es s) hcode hlt).1]
      omega
    · rw [(onClose_idle code true (runEvents es s) (Or.inr (Or.inr (by omega)))).1]
      omega
  · rw [hfullT]
    rfl
  · intro c online st h
    rcases h with h | h
    · exact onClose_idle c online st (Or.inl h)
    · exact onClose_idle c online st (Or.inr (Or.inl h))

/-- Witness for C3: the third abnormal close of a run from the initial state
(two closes, each followed by the reconnect timer) schedules 9000 ms. -/
theorem reconnect_backoff_witness :
    (onClose 1006 true (runEvents
        [.close 1006 true, .timer true true, .close 1006 true, .timer true true]
        App.initial)).timeouts = [3000, 6000, 9000] :=
  (reconnect_backoff [.close 1006 true, .timer true true, .close 1006 true, .timer true true]
    App.initial 1006 rfl (by decide) (by decide)).2.2.2.2.1

/-! ## C4: `connect` -/

/-- C4 (amended): `connect` opens a new socket exactly when the manager owns no
`OPEN` or `CONNECTING` socket, the host is online and the `WebSocket`
constructor returns; the new socket is `CONNECTING` and `isConnecting` is set.
With an `OPEN` or `CONNECTING` socket the call changes nothing at all.  With no
such socket and the host offline it reports the offline error and opens
nothing.  With no such socket, the host online and a throwing constructor it
reports "Failed to connect to the server.", resets `isConnecting` and opens
nothing.  Two calls in succession open at most one socket, and when the first
call opened one the second call changes nothing. -/
theorem connect_opens_iff (online ctorOk : Bool) (s : App) :
    ((connect online ctorOk s).created = s.created + 1 ↔
      (socketLive s = false ∧ online = true ∧ ctorOk = true)) ∧
    ((connect online ctorOk s).created = s.created ∨
      ((connect online ctorOk s).created = s.created + 1 ∧
        (connect online ctorOk s).socket = some ⟨s.created, .CONNECTING⟩ ∧
        (connect online ctorOk s).isConnecting = true)) ∧
    (socketLive s = true → connect online ctorOk s = s) ∧
    (socketLive s = false → online = false →
      (connect online ctorOk s).created = s.created ∧
      (connect online ctorOk s).socket = s.socket ∧
      (connect online ctorOk s).error
        = some "Failed to connect to the server. You are offline.") ∧
    (socketLive s = false → online = true → ctorOk = false →
      (connect online ctorOk s).created = s.created ∧
      (connect online ctorOk s).socket = s.socket ∧
      (connect online ctorOk s).isConnecting = false ∧
      (connect online ctorOk s).error = some "Failed to connect to the server.") ∧
    (∀ online2 ctorOk2 : Bool,
      (connect online2 ctorOk2 (connect online ctorOk s)).created ≤ s.created + 1 ∧
      ((connect online ctorOk s).created = s.created + 1 →
        connect online2 ctorOk2 (connect online ctorOk s) = connect online ctorOk s)) := by
  have hopen : socketLive s = false → online = true → ctorOk = true →
      socketLive (connect online ctorOk s) = true := by
    intro h1 h2 h3
    subst h2
    subst h3
    unfold connect
    rw [if_neg (by simp [h1])]
    simp [socketLive]
  cases hl : socketLive s <;> cases online <;> cases ctorOk
  all_goals
    refine ⟨?_, ?_, ?_, ?_, ?_, ?_⟩
    all_goals try (simp [connect, hl]; done)
  all_goals
    intro online2 ctorOk2
    first
    | (have h := hopen hl rfl rfl
       have h2 : connect online2 ctorOk2 (connect true true s) = connect true true s := by
         rw [connect, if_pos h]
       rw [h2]
       simp [connect, hl])
    | (cases online2 <;> cases ctorOk2 <;> simp [connect, hl] <;> (try split_ifs) <;> simp)

/-- C4 (counterexample): from the initial state (no socket) with the host
online, a throwing `WebSocket` constructor leaves the manager without a new
socket although no `OPEN` or `CONNECTING` socket is owned; and with an `OPEN`
socket and the host offline the call reports no error. -/
theorem connect_counterexample :
    (socketLive App.initial = false ∧
      (connect true false App.initial).created = App.initial.created ∧
      (connect true false App.initial).socket = none ∧
      (connect true false App.initial).error = some "Failed to connect to the server.") ∧
    (connect false true { App.initial with socket := some ⟨0, .OPEN⟩, created := 1 }).error
      = none := by
  decide

/-! ## C5 to C7: the offline responses -/

theorem includes_html : includes "text/html" "text/html" = true := by decide

theorem queueOffline_completes (e : FetchEnv) (db : DB) (req : Request)
    (h : tryBlockCompletes e db req) :
    (queueOffline e db req).1 = some (queuedResponse e.bodyNow) := by
  obtain ⟨hjson, hget, hput⟩ := h
  unfold queueOffline
  cases hj : req.json with
  | none => exact absurd hj hjson
  | some messageData =>
    simp only
    cases hgo : e.getEnv.openOk with
    | false =>
      cases hpo : e.putEnv.openOk with
      | false => simp [getData, storeData, openDB, hgo, hpo, pushPending]
      | true =>
        have := hput hpo
        simp [getData, storeData, openDB, hgo, hpo, pushPending, this]
    | true =>
      obtain ⟨hreq, harr⟩ := hget hgo
      simp only [getData, openDB, hgo, hreq, if_true]
      have hpush : ∃ pm, pushPending ((DB.get db "pendingMessages").map (fun r => r.value))
          (pendingEntry messageData e.idNow e.savedAtIso) = .ok pm := by
        cases hs : (DB.get db "pendingMessages").map (fun r => r.value) with
        | none => exact ⟨_, rfl⟩
        | some v =>
          cases v with
          | msgs l => exact ⟨_, rfl⟩
          | text t =>
            have ht := harr t hs
            subst ht
            refine ⟨[pendingEntry messageData e.idNow e.savedAtIso], ?_⟩
            simp [pushPending]
      obtain ⟨pm, hpm⟩ := hpush
      rw [hpm]
      simp only
      cases hpo : e.putEnv.openOk with
      | false => simp [storeData, openDB, hpo]
      | true =>
        have := hput hpo
        simp [storeData, openDB, hpo, this]

theorem queueOffline_fails (e : FetchEnv) (db : DB) (req : Request)
    (h : ¬ tryBlockCompletes e db req) :
    queueOffline e db req = (none, db) := by
  unfold queueOffline
  cases hj : req.json with
  | none => rfl
  | some messageData =>
    simp only
    cases hgo : e.getEnv.openOk with
    | false =>
      cases hpo : e.putEnv.openOk with
      | false =>
        exfalso
        apply h
        refine ⟨by simp [hj], ?_, ?_⟩
        · intro h1; simp [hgo] at h1
        · intro h1; simp [hpo] at h1
      | true =>
        cases hpt : e.putEnv.txOk with
        | true =>
          exfalso
          apply h
          refine ⟨by simp [hj], ?_, ?_⟩
          · intro h1; simp [hgo] at h1
          · intro _; exact hpt
        | false => simp [getData, storeData, openDB, hgo, hpo, hpt, pushPending]
    | true =>
      cases hgr : e.getEnv.reqOk with
      | false => simp [getData, openDB, hgo, hgr]
      | true =>
        simp only [getData, openDB, hgo, hgr, if_true]
        cases hs : (DB.get db "pendingMessages").map (fun r => r.value) with
        | none =>
          simp only [pushPending]
          cases hpo : e.putEnv.openOk with
          | false =>
            exfalso
            apply h
            refine ⟨by simp [hj], ?_, ?_⟩
            · intro _; exact ⟨hgr, by intro t ht; simp [hs] at ht⟩
            · intro h1; simp [hpo] at h1
          | true =>
            cases hpt : e.putEnv.txOk with
            | true =>
              exfalso
              apply h
              refine ⟨by simp [hj], ?_, ?_⟩
              · intro _; exact ⟨hgr, by intro t ht; simp [hs] at ht⟩
              · intro _; exact hpt
            | false => simp [storeData, openDB, hpo, hpt]
        | some v =>
          cases v with
          | msgs l =>
            simp only [pushPending]
            cases hpo : e.putEnv.openOk with
            | false =>
              exfalso
              apply h
              refine ⟨by simp [hj], ?_, ?_⟩
              · intro _; exact ⟨hgr, by intro t ht; simp [hs] at ht⟩
              · intro h1; simp [hpo] at h1
            | true =>
              cases hpt : e.putEnv.txOk with
              | true =>
                exfalso
                apply h
                refine ⟨by simp [hj], ?_, ?_⟩
                · intro _; exact ⟨hgr, by intro t ht; simp [hs] at ht⟩
                · intro _; exact hpt
              | false => simp [storeData, openDB, hpo, hpt]
          | text t =>
            by_cases ht : t = ""
            · subst ht
              simp only [pushPending, if_true]
              cases hpo : e.putEnv.openOk with
              | false =>
                exfalso
                apply h
                refine ⟨by simp [hj], ?_, ?_⟩
                · intro _
                  refine ⟨hgr, ?_⟩
                  intro t ht
                  rw [hs] at ht
                  injection ht with ht
                  injection ht with ht
                  exact ht.symm
                · intro h1; simp [hpo] at h1
              | true =>
                cases hpt : e.putEnv.txOk with
                | true =>
                  exfalso
                  apply h
                  refine ⟨by simp [hj], ?_, ?_⟩
                  · intro _
                    refine ⟨hgr, ?_⟩
                    intro t ht
                    rw [hs] at ht
                    injection ht with ht
                    injection ht with ht
                    exact ht.symm
                  · intro _; exact hpt
                | false => simp [storeData, openDB, hpo, hpt]
            · simp [pushPending, ht]

/-- C5 (code at the failing input): a POST whose URL contains `ws://`, with a
body that parses, fails at the network while the database cannot be opened
(both `getData` and `storeData` see `onerror` on the open request).  For every
store content, payload and clock reading the handler answers with the "queued"
acknowledgement, status 202, and the store is exactly as before: the message
is in no stored sequence. -/
theorem fetchHandler_acknowledges_unsaved (db : DB) (m : JObj) (reason iso : String)
    (r1 t1 r2 t2 : Bool) (n1 n2 idNow bodyNow : Nat) :
    fetchHandler ⟨.rejected reason, ⟨false, r1, t1, n1⟩, ⟨false, r2, t2, n2⟩, idNow, iso, bodyNow⟩
        ⟨[], db⟩ ⟨"http://localhost:3000/relay?to=ws://localhost:8080", "POST", none, some m⟩
      = ⟨some (queuedResponse bodyNow),
          [⟨"http://localhost:3000/relay?to=ws://localhost:8080", "POST", none, some m⟩],
          ⟨[], db⟩⟩ ∧
    (queuedResponse bodyNow).status = 202 := by
  have h1 : includes "http://localhost:3000/relay?to=ws://localhost:8080" "/api/" = false := by
    decide
  have h2 : includes "http://localhost:3000/relay?to=ws://localhost:8080" "/status" = false := by
    decide
  have h3 : includes "http://localhost:3000/relay?to=ws://localhost:8080" "ws://" = true := by
    decide
  refine ⟨?_, rfl⟩
  simp [fetchHandler, cachesMatch, offlineResponse, h1, h2, h3, queueOffline, getData, storeData,
    openDB, pushPending]

/-- The order of the offline responses, for a request that misses the cache and
fails at the network: (a) the accept header includes `text/html` and
`/offline.html` is cached: the cached document; (b) the URL contains `/api/` or
`/status`: the JSON body `{error, offline: true, timestamp}`; (c) the URL
contains `ws://`, the method is POST and the `try` block runs to its `return`:
the queued acknowledgement with status 202; (d) every other request that does
not accept HTML, a (c)-shaped one whose `try` block is left through `catch`
included: the plain-text response with status 503. -/
theorem offline_dispatch (e : FetchEnv) (w : World) (req : Request)
    (hmiss : cachesMatch w.caches req = none)
    (hnet : ∃ reason, e.network = .rejected reason) :
    ((req.accept.map (fun a => includes a "text/html")).getD false = true →
      ∀ doc, cachesMatch w.caches offlineRequest = some doc →
        (fetchHandler e w req).response = some doc) ∧
    ((req.accept.map (fun a => includes a "text/html")).getD false = false →
      (includes req.url "/api/" || includes req.url "/status") = true →
      (fetchHandler e w req).response = some (offlineJsonResponse e.bodyNow)) ∧
    ((req.accept.map (fun a => includes a "text/html")).getD false = false →
      (includes req.url "/api/" || includes req.url "/status") = false →
      (includes req.url "ws://" && req.method == "POST") = true →
      tryBlockCompletes e w.db req →
      (fetchHandler e w req).response = some (queuedResponse e.bodyNow)) ∧
    ((req.accept.map (fun a => includes a "text/html")).getD false = false →
      (includes req.url "/api/" || includes req.url "/status") = false →
      ((includes req.url "ws://" && req.method == "POST") = false ∨
        ¬ tryBlockCompletes e w.db req) →
      (fetchHandler e w req).response = some genericOfflineResponse) ∧
    ((offlineJsonResponse e.bodyNow).status = 200 ∧ (queuedResponse e.bodyNow).status = 202 ∧
      genericOfflineResponse.status = 503) := by
  obtain ⟨reason, hnet⟩ := hnet
  have hfetch : (fetchHandler e w req).response = (offlineResponse e w req).1 := by
    simp [fetchHandler, hmiss, hnet]
  rw [hfetch]
  refine ⟨?_, ?_, ?_, ?_, ⟨rfl, rfl, rfl⟩⟩
  · intro ha
    have : (offlineResponse e w req).1 = cachesMatch w.caches offlineRequest := by
      simp [offlineResponse, ha]
    exact fun doc hdoc => by rw [this, hdoc]
  · intro ha hb
    simp only [offlineResponse, ha, hb, if_true, Bool.false_eq_true, if_false]
  · intro ha hb hc hd
    have hq := queueOffline_completes e w.db req hd
    simp only [offlineResponse, ha, hb, hc, if_true, Bool.false_eq_true, if_false]
    cases hres : queueOffline e w.db req with
    | mk r db' =>
      rw [hres] at hq
      simp only at hq
      subst hq
      rfl
  · intro ha hb hc
    rcases hc with hc | hc
    · simp only [offlineResponse, ha, hb, hc, if_true, Bool.false_eq_true, if_false]
    · have hq := queueOffline_fails e w.db req hc
      simp only [offlineResponse, ha, hb, Bool.false_eq_true, if_false]
      split_ifs
      · rw [hq]
      · rfl

/-- A queued write, with an empty cache and a working store, is acknowledged
with the 202 response. -/
theorem offline_dispatch_witness :
    (fetchHandler ⟨.rejected "offline", ⟨true, true, true, 1⟩, ⟨true, true, true, 2⟩, 3, "t", 4⟩
        ⟨[], []⟩ ⟨"http://h/relay?to=ws://h", "POST", none, some [("content", .str "hi")]⟩).response
      = some (queuedResponse 4) :=
  (offline_dispatch ⟨.rejected "offline", ⟨true, true, true, 1⟩, ⟨true, true, true, 2⟩, 3, "t", 4⟩
    ⟨[], []⟩ ⟨"http://h/relay?to=ws://h", "POST", none, some [("content", .str "hi")]⟩
    rfl ⟨"offline", rfl⟩).2.2.1 rfl (by decide) (by decide)
    ⟨by simp, fun _ => ⟨rfl, by intro t ht; simp [DB.get] at ht⟩, fun _ => rfl⟩

/-- A POST whose URL contains `ws://`, not accepting HTML, not matching the
API/status pattern, with a body that parses: when the `get` request on the
queue store fires `onerror`, `getData` rejects and the handler answers with the
503 response, not with the 202 acknowledgement, and stores nothing. -/
theorem fetchHandler_store_read_error :
    (fetchHandler ⟨.rejected "offline", ⟨true, false, true, 1⟩, ⟨true, true, true, 2⟩, 3, "t", 4⟩
        ⟨[], []⟩ ⟨"http://h/relay?to=ws://h", "POST", none, some [("content", .str "hi")]⟩)
      = ⟨some genericOfflineResponse,
          [⟨"http://h/relay?to=ws://h", "POST", none, some [("content", .str "hi")]⟩],
          ⟨[], []⟩⟩ ∧
    genericOfflineResponse.status = 503 ∧
    genericOfflineResponse ≠ queuedResponse 4 := by
  decide

/-- C6 (code at the failing input): a GET of `/dashboard` accepting
`text/html,application/xhtml+xml` misses the cache and fails at the network,
while the cache `CACHE_NAME` holds an asset but no `/offline.html`.  For every
store content and database behaviour the handler resolves to `undefined`: after
one network fetch it produces none of the four responses. -/
theorem offline_dispatch_no_response (db : DB) (reason iso : String)
    (ge pe : IdbEnv) (idNow bodyNow : Nat) :
    cachesMatch
        [⟨CACHE_NAME, [(⟨"/logo.png", "GET", none, none⟩,
          ⟨200, "basic", some "image/png", .text "png"⟩)]⟩]
        ⟨"/dashboard", "GET", some "text/html,application/xhtml+xml", none⟩ = none ∧
    fetchHandler ⟨.rejected reason, ge, pe, idNow, iso, bodyNow⟩
        ⟨[⟨CACHE_NAME, [(⟨"/logo.png", "GET", none, none⟩,
          ⟨200, "basic", some "image/png", .text "png"⟩)]⟩], db⟩
        ⟨"/dashboard", "GET", some "text/html,application/xhtml+xml", none⟩
      = ⟨none, [⟨"/dashboard", "GET", some "text/html,application/xhtml+xml", none⟩],
          ⟨[⟨CACHE_NAME, [(⟨"/logo.png", "GET", none, none⟩,
            ⟨200, "basic", some "image/png", .text "png"⟩)]⟩], db⟩⟩ := by
  have hinc : includes "text/html,application/xhtml+xml" "text/html" = true := by decide
  have hmiss : cachesMatch
      [⟨CACHE_NAME, [(⟨"/logo.png", "GET", none, none⟩,
        ⟨200, "basic", some "image/png", .text "png"⟩)]⟩]
      ⟨"/dashboard", "GET", some "text/html,application/xhtml+xml", none⟩ = none := by decide
  have hoff : cachesMatch
      [⟨CACHE_NAME, [(⟨"/logo.png", "GET", none, none⟩,
        ⟨200, "basic", some "image/png", .text "png"⟩)]⟩] offlineRequest = none := by decide
  refine ⟨hmiss, ?_⟩
  simp only [fetchHandler, hmiss, offlineResponse, Option.map, Option.getD, hinc, if_true, hoff]

/-- C7 (code at the failing input): a navigation request accepting `text/html`
fails at the network while the Cache Storage holds no `/offline.html` (here: no
cache at all).  For every store content and every database behaviour the
handler resolves to `undefined`: no response, and in particular not the
generic 503 response. -/
theorem fetchHandler_html_without_fallback (db : DB) (reason iso : String)
    (ge pe : IdbEnv) (idNow bodyNow : Nat) :
    (fetchHandler ⟨.rejected reason, ge, pe, idNow, iso, bodyNow⟩ ⟨[], db⟩
        ⟨"/", "GET", some "text/html", none⟩).response = none ∧
    (fetchHandler ⟨.rejected reason, ge, pe, idNow, iso, bodyNow⟩ ⟨[], db⟩
        ⟨"/", "GET", some "text/html", none⟩).response ≠ some genericOfflineResponse := by
  have h : (fetchHandler ⟨.rejected reason, ge, pe, idNow, iso, bodyNow⟩ ⟨[], db⟩
      ⟨"/", "GET", some "text/html", none⟩).response = none := by
    simp [fetchHandler, cachesMatch, offlineResponse, includes_html]
  exact ⟨h, by rw [h]; simp⟩

/-! ## C8 and C9: cache first, then network -/

theorem entriesMatch_put (es : List (Request × Response)) (req : Request) (r : Response)
    (hget : req.method = "GET") :
    entriesMatch (entriesPut es req r) req = some r := by
  induction es with
  | nil => simp [entriesPut, entriesMatch, hget]
  | cons p rest ih =>
    obtain ⟨q, r'⟩ := p
    by_cases h : q.url = req.url
    · simp [entriesPut, entriesMatch, h, hget]
    · simp [entriesPut, entriesMatch, h, ih]

theorem entriesMatch_nonGet (es : List (Request × Response)) (req : Request)
    (hm : req.method ≠ "GET") : entriesMatch es req = none := by
  induction es with
  | nil => rfl
  | cons p rest ih =>
    obtain ⟨q, r'⟩ := p
    simp [entriesMatch, hm, ih]

theorem cachesMatch_nonGet (cs : CacheStorage) (req : Request) (hm : req.method ≠ "GET") :
    cachesMatch cs req = none := by
  induction cs with
  | nil => rfl
  | cons c rest ih => simp [cachesMatch, entriesMatch_nonGet c.entries req hm, ih]

theorem entriesMatch_none_not_mem (es : List (Request × Response)) (req : Request)
    (hget : req.method = "GET") (hmiss : entriesMatch es req = none) (r : Response) :
    (req, r) ∉ es := by
  induction es with
  | nil => simp
  | cons p rest ih =>
    obtain ⟨q, r'⟩ := p
    by_cases h : q.url = req.url
    · simp [entriesMatch, h, hget] at hmiss
    · simp only [entriesMatch, h, and_false, if_false] at hmiss
      intro hmem
      rcases List.mem_cons.mp hmem with h1 | h1
      · injection h1 with h2 _
        exact h (by rw [h2])
      · exact ih hmiss h1

theorem cachesMatch_none_not_mem (cs : CacheStorage) (req : Request)
    (hget : req.method = "GET") (hmiss : cachesMatch cs req = none) (r : Response) :
    ∀ c ∈ cs, (req, r) ∉ c.entries := by
  induction cs with
  | nil => intro c hc; simp at hc
  | cons c0 rest ih =>
    simp only [cachesMatch] at hmiss
    cases hc0 : entriesMatch c0.entries req with
    | some r' => simp [hc0] at hmiss
    | none =>
      simp only [hc0] at hmiss
      intro c hc
      rcases List.mem_cons.mp hc with h | h
      · rw [h]
        exact entriesMatch_none_not_mem c0.entries req hget hc0 r
      · exact ih hmiss c h

theorem entriesPut_mem (es : List (Request × Response)) (req : Request) (r : Response)
    (p : Request × Response) (hp : p ∈ entriesPut es req r) : p ∈ es ∨ p = (req, r) := by
  induction es with
  | nil =>
    simp only [entriesPut, List.mem_singleton] at hp
    exact Or.inr hp
  | cons p' rest ih =>
    obtain ⟨q, r'⟩ := p'
    by_cases h : q.url = req.url
    · simp only [entriesPut, h, if_true, List.mem_cons] at hp
      rcases hp with hp | hp
      · exact Or.inr hp
      · exact Or.inl (List.mem_cons_of_mem _ hp)
    · simp only [entriesPut, h, if_false, List.mem_cons] at hp
      rcases hp with hp | hp
      · exact Or.inl (by rw [hp]; exact List.mem_cons_self _ _)
      · rcases ih hp with h1 | h1
        · exact Or.inl (List.mem_cons_of_mem _ h1)
        · exact Or.inr h1

theorem entriesPut_self_mem (es : List (Request × Response)) (req : Request) (r : Response) :
    (req, r) ∈ entriesPut es req r := by
  induction es with
  | nil => simp [entriesPut]
  | cons p rest ih =>
    obtain ⟨q, r'⟩ := p
    by_cases h : q.url = req.url
    · simp [entriesPut, h]
    · simp [entriesPut, h, ih]

theorem cachePut_mem (es : List (Request × Response)) (req : Request) (r : Response)
    (p : Request × Response) (hp : p ∈ cachePut es req r) :
    p ∈ es ∨ (p = (req, r) ∧ req.method = "GET") := by
  unfold cachePut at hp
  by_cases hget : req.method = "GET"
  · rw [if_pos hget] at hp
    rcases entriesPut_mem es req r p hp with h | h
    · exact Or.inl h
    · exact Or.inr ⟨h, hget⟩
  · rw [if_neg hget] at hp
    exact Or.inl hp

theorem cachesMatch_openPut (cs : CacheStorage) (name : String) (req : Request) (r : Response)
    (hget : req.method = "GET") (hmiss : cachesMatch cs req = none) :
    cachesMatch (cachesOpenPut cs name req r) req = some r := by
  induction cs with
  | nil => simp [cachesOpenPut, cachePut, entriesPut, cachesMatch, entriesMatch, hget]
  | cons c rest ih =>
    simp only [cachesMatch] at hmiss
    cases hc : entriesMatch c.entries req with
    | some r' => simp [hc] at hmiss
    | none =>
      simp only [hc] at hmiss
      by_cases hn : c.name = name
      · simp [cachesOpenPut, cachePut, hn, hget, cachesMatch, entriesMatch_put]
      · simp [cachesOpenPut, hn, cachesMatch, hc, ih hmiss]

theorem cachesOpenPut_self_mem (cs : CacheStorage) (name : String) (req : Request)
    (r : Response) (hget : req.method = "GET") :
    ∃ c ∈ cachesOpenPut cs name req r, c.name = name ∧ (req, r) ∈ c.entries := by
  induction cs with
  | nil =>
    exact ⟨⟨name, cachePut [] req r⟩, by simp [cachesOpenPut], rfl,
      by simp [cachePut, hget, entriesPut]⟩
  | cons c rest ih =>
    by_cases hn : c.name = name
    · refine ⟨⟨c.name, cachePut c.entries req r⟩, by simp [cachesOpenPut, hn], hn, ?_⟩
      simp only [cachePut, hget, if_true]
      exact entriesPut_self_mem c.entries req r
    · obtain ⟨c', hc', h1, h2⟩ := ih
      exact ⟨c', by simp [cachesOpenPut, hn, hc'], h1, h2⟩

theorem cachesOpenPut_mem (cs : CacheStorage) (name : String) (req : Request) (r : Response)
    (c' : NamedCache) (hc : c' ∈ cachesOpenPut cs name req r)
    (p : Request × Response) (hp : p ∈ c'.entries) :
    (∃ c ∈ cs, c.name = c'.name ∧ p ∈ c.entries) ∨
    (p = (req, r) ∧ c'.name = name ∧ req.method = "GET") := by
  induction cs with
  | nil =>
    simp only [cachesOpenPut, List.mem_singleton] at hc
    subst hc
    rcases cachePut_mem [] req r p hp with h1 | ⟨h1, h2⟩
    · simp at h1
    · exact Or.inr ⟨h1, rfl, h2⟩
  | cons c rest ih =>
    by_cases hn : c.name = name
    · simp only [cachesOpenPut, hn, if_true, List.mem_cons] at hc
      rcases hc with hc | hc
      · subst hc
        rcases cachePut_mem c.entries req r p hp with h1 | ⟨h1, h2⟩
        · exact Or.inl ⟨c, List.mem_cons_self _ _, hn, h1⟩
        · exact Or.inr ⟨h1, rfl, h2⟩
      · exact Or.inl ⟨c', List.mem_cons_of_mem _ hc, rfl, hp⟩
    · simp only [cachesOpenPut, hn, if_false, List.mem_cons] at hc
      rcases hc with hc | hc
      · subst hc
        exact Or.inl ⟨c', List.mem_cons_self _ _, rfl, hp⟩
      · rcases ih hc with ⟨c0, hc0, h1, h2⟩ | h1
        · exact Or.inl ⟨c0, List.mem_cons_of_mem _ hc0, h1, h2⟩
        · exact Or.inr h1

theorem offlineResponse_caches (e : FetchEnv) (w : World) (req : Request) :
    (offlineResponse e w req).2.caches = w.caches := by
  unfold offlineResponse
  split_ifs
  · rfl
  · rfl
  · split <;> rfl
  · rfl

theorem fetchHandler_hit (e : FetchEnv) (w : World) (req : Request) (r : Response)
    (hhit : cachesMatch w.caches req = some r) :
    fetchHandler e w req = ⟨some r, [], w⟩ := by
  simp [fetchHandler, hhit]

theorem serveRepeated_hit (es : List FetchEnv) (w : World) (req : Request) (r : Response)
    (hhit : cachesMatch w.caches req = some r) :
    serveRepeated es w req = es.map (fun _ => (⟨some r, [], w⟩ : FetchResult)) := by
  induction es with
  | nil => rfl
  | cons e rest ih =>
    simp only [serveRepeated, List.map_cons]
    rw [fetchHandler_hit e w req r hhit]
    simp only
    rw [ih]

/-- C8: for every request with a matching entry in the cache the fetch handler
returns that cached response itself, issues no network fetch and leaves the
caches (and the store) as they were.  Hence any number of repeated requests
for it are all answered from the cache without a network fetch, whatever the
network would do. -/
theorem cache_hit_no_network (e : FetchEnv) (w : World) (req : Request) (r : Response)
    (hhit : cachesMatch w.caches req = some r) :
    (fetchHandler e w req).response = some r ∧
    (fetchHandler e w req).fetched = [] ∧
    (fetchHandler e w req).world = w ∧
    (∀ es : List FetchEnv, ∀ res ∈ serveRepeated es w req,
      res.response = some r ∧ res.fetched = [] ∧ res.world = w) ∧
    (∀ es : List FetchEnv, (serveRepeated es w req).length = es.length) := by
  have h := fetchHandler_hit e w req r hhit
  refine ⟨by rw [h], by rw [h], by rw [h], ?_, ?_⟩
  · intro es res hres
    rw [serveRepeated_hit es w req r hhit] at hres
    obtain ⟨_, _, hres⟩ := List.mem_map.mp hres
    subst hres
    exact ⟨rfl, rfl, rfl⟩
  · intro es
    rw [serveRepeated_hit es w req r hhit]
    simp

/-- Witness for C8: `/index.html` is in the current cache; a request for it
while the network is down is answered with the cached response and without a
network fetch. -/
theorem cache_hit_no_network_witness :
    cachesMatch [⟨CACHE_NAME, [(⟨"/index.html", "GET", none, none⟩,
        ⟨200, "basic", some "text/html", .text "<html>"⟩)]⟩]
        ⟨"/index.html", "GET", some "text/html", none⟩
      = some ⟨200, "basic", some "text/html", .text "<html>"⟩ ∧
    (fetchHandler ⟨.rejected "offline", ⟨true, true, true, 0⟩, ⟨true, true, true, 0⟩, 0, "t", 0⟩
        ⟨[⟨CACHE_NAME, [(⟨"/index.html", "GET", none, none⟩,
            ⟨200, "basic", some "text/html", .text "<html>"⟩)]⟩], []⟩
        ⟨"/index.html", "GET", some "text/html", none⟩).response
      = some ⟨200, "basic", some "text/html", .text "<html>"⟩ ∧
    (fetchHandler ⟨.rejected "offline", ⟨true, true, true, 0⟩, ⟨true, true, true, 0⟩, 0, "t", 0⟩
        ⟨[⟨CACHE_NAME, [(⟨"/index.html", "GET", none, none⟩,
            ⟨200, "basic", some "text/html", .text "<html>"⟩)]⟩], []⟩
        ⟨"/index.html", "GET", some "text/html", none⟩).fetched = [] :=
  ⟨by decide,
    (cache_hit_no_network
      ⟨.rejected "offline", ⟨true, true, true, 0⟩, ⟨true, true, true, 0⟩, 0, "t", 0⟩
      ⟨[⟨CACHE_NAME, [(⟨"/index.html", "GET", none, none⟩,
          ⟨200, "basic", some "text/html", .text "<html>"⟩)]⟩], []⟩
      ⟨"/index.html", "GET", some "text/html", none⟩
      ⟨200, "basic", some "text/html", .text "<html>"⟩ (by decide)).1,
    (cache_hit_no_network
      ⟨.rejected "offline", ⟨true, true, true, 0⟩, ⟨true, true, true, 0⟩, 0, "t", 0⟩
      ⟨[⟨CACHE_NAME, [(⟨"/index.html", "GET", none, none⟩,
          ⟨200, "basic", some "text/html", .text "<html>"⟩)]⟩], []⟩
      ⟨"/index.html", "GET", some "text/html", none⟩
      ⟨200, "basic", some "text/html", .text "<html>"⟩ (by decide)).2.1⟩

/-- C9 (amended): for every request that misses the cache and every network
response to it, the fetch handler returns that response, after exactly one
network fetch, and stores the pair (original request, response) in the cache
`CACHE_NAME` if and only if the status is 200, the type is "basic" and the
request method is GET: then the pair is in that cache afterwards (it was in no
cache before) and the request matches the response; otherwise every entry
present afterwards was there before, and with another status or type the whole
state is unchanged.  Therefore, for every fetch event whatsoever, each cache
entry present afterwards either was there before or is a GET request with a
response of status 200 and type "basic". -/
theorem network_success_caches_iff (e : FetchEnv) (w : World) (req : Request) (r : Response)
    (hmiss : cachesMatch w.caches req = none)
    (hnet : e.network = .resolved (some r)) :
    (fetchHandler e w req).response = some r ∧
    (fetchHandler e w req).fetched = [req] ∧
    (fetchHandler e w req).world.db = w.db ∧
    ((r.status = 200 ∧ r.type = "basic" ∧ req.method = "GET") →
      (fetchHandler e w req).world.caches = cachesOpenPut w.caches CACHE_NAME req r ∧
      cachesMatch (fetchHandler e w req).world.caches req = some r ∧
      (∃ c ∈ (fetchHandler e w req).world.caches, c.name = CACHE_NAME ∧ (req, r) ∈ c.entries) ∧
      (∀ c ∈ w.caches, (req, r) ∉ c.entries)) ∧
    (¬ (r.status = 200 ∧ r.type = "basic") → (fetchHandler e w req).world = w) ∧
    (¬ (r.status = 200 ∧ r.type = "basic" ∧ req.method = "GET") →
      ∀ c2 ∈ (fetchHandler e w req).world.caches, ∀ p ∈ c2.entries,
        ∃ c ∈ w.caches, c.name = c2.name ∧ p ∈ c.entries) ∧
    (∀ (e2 : FetchEnv) (w2 : World) (req2 : Request),
      ∀ c2 ∈ (fetchHandler e2 w2 req2).world.caches, ∀ p ∈ c2.entries,
        (∃ c ∈ w2.caches, c.name = c2.name ∧ p ∈ c.entries) ∨
        (p.2.status = 200 ∧ p.2.type = "basic" ∧ p.1 = req2 ∧ p.1.method = "GET" ∧
          c2.name = CACHE_NAME)) := by
  have hyes : (r.status = 200 ∧ r.type = "basic") →
      (fetchHandler e w req).world.caches = cachesOpenPut w.caches CACHE_NAME req r := by
    intro h
    simp [fetchHandler, hmiss, hnet, h.1, h.2]
  have hno : ¬ (r.status = 200 ∧ r.type = "basic") → (fetchHandler e w req).world = w := by
    intro h
    have h2 : r.status ≠ 200 ∨ r.type ≠ "basic" := by
      by_cases hs : r.status = 200
      · exact Or.inr (fun ht => h ⟨hs, ht⟩)
      · exact Or.inl hs
    simp [fetchHandler, hmiss, hnet, h2]
  refine ⟨?_, ?_, ?_, ?_, hno, ?_, ?_⟩
  · simp only [fetchHandler, hmiss, hnet]
    split_ifs <;> rfl
  · simp only [fetchHandler, hmiss, hnet]
    split_ifs <;> rfl
  · simp only [fetchHandler, hmiss, hnet]
    split_ifs <;> rfl
  · intro h
    have hc := hyes ⟨h.1, h.2.1⟩
    refine ⟨hc, ?_, ?_, ?_⟩
    · rw [hc]
      exact cachesMatch_openPut w.caches CACHE_NAME req r h.2.2 hmiss
    · rw [hc]
      exact cachesOpenPut_self_mem w.caches CACHE_NAME req r h.2.2
    · exact cachesMatch_none_not_mem w.caches req h.2.2 hmiss r
  · intro h c2 hc2 p hp
    by_cases hsb : r.status = 200 ∧ r.type = "basic"
    · have hm : req.method ≠ "GET" := fun hg => h ⟨hsb.1, hsb.2, hg⟩
      rw [hyes hsb] at hc2
      rcases cachesOpenPut_mem w.caches CACHE_NAME req r c2 hc2 p hp with h1 | ⟨_, _, h3⟩
      · exact h1
      · exact absurd h3 hm
    · rw [hno hsb] at hc2
      exact ⟨c2, hc2, rfl, hp⟩
  · intro e2 w2 req2 c2 hc2 p hp
    unfold fetchHandler at hc2
    cases hm : cachesMatch w2.caches req2 with
    | some r2 =>
      simp only [hm] at hc2
      exact Or.inl ⟨c2, hc2, rfl, hp⟩
    | none =>
      simp only [hm] at hc2
      cases hn : e2.network with
      | rejected reason =>
        simp only [hn] at hc2
        rw [offlineResponse_caches] at hc2
        exact Or.inl ⟨c2, hc2, rfl, hp⟩
      | resolved o =>
        cases o with
        | none =>
          simp only [hn] at hc2
          exact Or.inl ⟨c2, hc2, rfl, hp⟩
        | some r2 =>
          simp only [hn] at hc2
          by_cases hcond : r2.status ≠ 200 ∨ r2.type ≠ "basic"
          · simp only [hcond, if_true] at hc2
            exact Or.inl ⟨c2, hc2, rfl, hp⟩
          · simp only [hcond, if_false] at hc2
            have hok : r2.status = 200 ∧ r2.type = "basic" := by
              constructor
              · by_contra h
                exact hcond (Or.inl h)
              · by_contra h
                exact hcond (Or.inr h)
            rcases cachesOpenPut_mem w2.caches CACHE_NAME req2 r2 c2 hc2 p hp with
              h1 | ⟨h1, h2, h3⟩
            · exact Or.inl h1
            · subst h1
              exact Or.inr ⟨hok.1, hok.2, rfl, h3, h2⟩

/-- Witness for C9 (amended): a same-origin 200 response for a GET of
`/logo.png`, fetched with an empty Cache Storage, is returned and put in the
cache `CACHE_NAME`. -/
theorem network_success_caches_iff_witness :
    (fetchHandler
        ⟨.resolved (some ⟨200, "basic", some "image/png", .text "png"⟩), ⟨true, true, true, 0⟩,
          ⟨true, true, true, 0⟩, 0, "t", 0⟩
        ⟨[], []⟩ ⟨"/logo.png", "GET", none, none⟩).world.caches
      = cachesOpenPut [] CACHE_NAME ⟨"/logo.png", "GET", none, none⟩
          ⟨200, "basic", some "image/png", .text "png"⟩ :=
  ((network_success_caches_iff
    ⟨.resolved (some ⟨200, "basic", some "image/png", .text "png"⟩), ⟨true, true, true, 0⟩,
      ⟨true, true, true, 0⟩, 0, "t", 0⟩
    ⟨[], []⟩ ⟨"/logo.png", "GET", none, none⟩ ⟨200, "basic", some "image/png", .text "png"⟩
    rfl rfl).2.2.2.1 ⟨rfl, rfl, rfl⟩).1

/-- C9 (counterexample): a POST of `/api/messages` misses the cache and is
answered by the network with status 200 and type "basic".  The handler returns
the response, and the cache `CACHE_NAME` holds no entry afterwards: the `put`
for a request that is not a GET stores nothing. -/
theorem network_success_post_counterexample :
    fetchHandler
        ⟨.resolved (some ⟨200, "basic", some "application/json", .text "ok"⟩),
          ⟨true, true, true, 0⟩, ⟨true, true, true, 0⟩, 0, "t", 0⟩
        ⟨[⟨CACHE_NAME, []⟩], []⟩
        ⟨"/api/messages", "POST", none, some [("content", .str "hi")]⟩
      = ⟨some ⟨200, "basic", some "application/json", .text "ok"⟩,
          [⟨"/api/messages", "POST", none, some [("content", .str "hi")]⟩],
          ⟨[⟨CACHE_NAME, []⟩], []⟩⟩ := by
  decide

/-! ## C10: failures of the object store -/

/-- C10 (code at the failing input): when the database opens but the
transaction fires `onerror`, `storeData` rejects instead of resolving to
`false`, and when the `get` request fires `onerror`, `getData` rejects instead
of resolving to `null`; this for every key, value and store content.  (When the
database cannot be opened they do resolve to `false` and `null`, and `getData`
for a key without record resolves to `null`.) -/
theorem store_rejects_after_open (db : DB) (key : String) (value : DBVal) (b1 b2 : Bool)
    (now : Nat) :
    storeData ⟨true, b1, false, now⟩ db key value = (.rejected "transaction error", db) ∧
    getData ⟨true, false, b2, now⟩ db key = .rejected "request error" ∧
    storeData ⟨false, b1, b2, now⟩ db key value = (.resolved false, db) ∧
    getData ⟨false, b1, b2, now⟩ db key = .resolved none ∧
    (DB.get db key = none → getData ⟨true, true, b2, now⟩ db key = .resolved none) := by
  refine ⟨?_, ?_, ?_, ?_, ?_⟩
  · simp [storeData, openDB]
  · simp [getData, openDB]
  · simp [storeData, openDB]
  · simp [getData, openDB]
  · intro h
    simp [getData, openDB, h]

/-! ## C11: the heartbeat timer and the connection flag -/

theorem connect_hbView (online ctorOk : Bool) (s : App) :
    hbView (connect online ctorOk s) = hbView s := by
  unfold connect hbView
  split_ifs <;> rfl

theorem sendMessage_hbView (e : SendEnv) (m : JObj) (s : App) :
    hbView (sendMessage e m s) = hbView s := by
  unfold sendMessage hbView
  cases s.socket with
  | none => rfl
  | some sock =>
    simp only
    split_ifs <;> rfl

theorem heartbeatTick_hbView (e : SendEnv) (isoNow : String) (s : App) :
    hbView (heartbeatTick e isoNow s) = hbView s := by
  unfold heartbeatTick
  split_ifs
  · exact sendMessage_hbView e _ s
  · rfl

theorem markReady_hbView (target : Nat) (rs : ReadyState) (s : App) :
    hbView (markReady target rs s) = hbView s := by
  unfold markReady hbView
  cases s.socket with
  | none => rfl
  | some sock =>
    simp only
    split_ifs <;> rfl

theorem onMessage_hbView (parsed : Option JObj) (s : App) :
    hbView (onMessage parsed s) = hbView s := by
  unfold onMessage hbView
  cases parsed <;> rfl

theorem timerConsistent_of_hbView (s t : App) (h : hbView t = hbView s)
    (hs : timerConsistent s) : timerConsistent t := by
  unfold hbView at h
  simp only [Prod.mk.injEq] at h
  obtain ⟨h1, h2, h3, _⟩ := h
  unfold timerConsistent at *
  rw [h1, h2, h3]
  exact hs

theorem stopHeartbeat_clears (s : App) (hs : timerConsistent s) :
    (stopHeartbeat s).heartbeatInterval = none ∧ (stopHeartbeat s).intervals = [] ∧
    (stopHeartbeat s).nextTimer = s.nextTimer ∧ (stopHeartbeat s).isConnected = s.isConnected := by
  obtain ⟨_, h | ⟨h, h0, hh, hi⟩⟩ := hs
  · unfold stopHeartbeat
    rw [h.1]
    exact ⟨h.1, h.2, rfl, rfl⟩
  · unfold stopHeartbeat
    rw [hh]
    simp [h0, hi]

theorem startHeartbeat_sets (s : App) (hs : timerConsistent s) :
    (startHeartbeat s).heartbeatInterval = some s.nextTimer ∧
    (startHeartbeat s).intervals = [s.nextTimer] ∧
    (startHeartbeat s).nextTimer = s.nextTimer + 1 ∧
    (startHeartbeat s).isConnected = s.isConnected := by
  obtain ⟨h1, h2, h3, h4⟩ := stopHeartbeat_clears s hs
  unfold startHeartbeat
  simp [h2, h3, h4]

theorem onOpen_heartbeat (s : App) (hs : timerConsistent s) :
    (onOpen s).heartbeatInterval = some s.nextTimer ∧ (onOpen s).intervals = [s.nextTimer] ∧
    (onOpen s).nextTimer = s.nextTimer + 1 ∧ (onOpen s).isConnected = true := by
  have hs2 : timerConsistent
      { s with isConnecting := false, reconnectAttempts := 0, isConnected := true } := hs
  obtain ⟨h1, h2, h3, h4⟩ := startHeartbeat_sets _ hs2
  exact ⟨h1, h2, h3, h4⟩

theorem onClose_heartbeat (code : Nat) (online : Bool) (s : App) (hs : timerConsistent s) :
    (onClose code online s).heartbeatInterval = none ∧ (onClose code online s).intervals = [] ∧
    (onClose code online s).nextTimer = s.nextTimer ∧
    (onClose code online s).isConnected = false := by
  have hs2 : timerConsistent { s with isConnecting := false, isConnected := false } := hs
  obtain ⟨h1, h2, h3, h4⟩ := stopHeartbeat_clears _ hs2
  unfold onClose
  simp only
  split_ifs
  · exact ⟨h1, h2, h3, h4⟩
  · exact ⟨h1, h2, h3, h4⟩

theorem disconnect_heartbeat (s : App) (hs : timerConsistent s) :
    (disconnect s).heartbeatInterval = none ∧ (disconnect s).intervals = [] ∧
    (disconnect s).nextTimer = s.nextTimer ∧ (disconnect s).isConnected = s.isConnected := by
  have hs2 : timerConsistent { s with socket := none } := hs
  exact stopHeartbeat_clears _ hs2

theorem applyEvent_hbView_frame (ev : Event) (s : App)
    (hev : match ev with
      | .opened _ => False
      | .closed _ _ _ => False
      | .disconnect => False
      | .offline => False
      | _ => True) :
    hbView (applyEvent ev s) = hbView s := by
  cases ev with
  | connect online ctorOk => exact connect_hbView online ctorOk s
  | opened target => exact absurd hev id
  | message parsed => exact onMessage_hbView parsed s
  | closed target code online => exact absurd hev id
  | error => rfl
  | disconnect => exact absurd hev id
  | send e message => exact sendMessage_hbView e message s
  | tick e isoNow =>
    simp only [applyEvent]
    split_ifs
    · rfl
    · exact heartbeatTick_hbView e isoNow s
  | online navOnline ctorOk => exact connect_hbView navOnline ctorOk s
  | offline => exact absurd hev id

theorem applyEvent_consistent (ev : Event) (s : App) (hs : timerConsistent s) :
    timerConsistent (applyEvent ev s) := by
  cases ev with
  | opened target =>
    have hm := timerConsistent_of_hbView s _ (markReady_hbView target .OPEN s) hs
    obtain ⟨h1, h2, h3, _⟩ := onOpen_heartbeat _ hm
    have hn : (markReady target .OPEN s).nextTimer = s.nextTimer :=
      congrArg (fun v => v.2.2.1) (markReady_hbView target .OPEN s)
    refine ⟨?_, Or.inr ⟨(markReady target .OPEN s).nextTimer, ?_, h1, h2⟩⟩
    · simp only [applyEvent]
      rw [h3]
      omega
    · rw [hn]
      have := hs.1
      omega
  | closed target code online =>
    have hm := timerConsistent_of_hbView s _ (markReady_hbView target .CLOSED s) hs
    obtain ⟨h1, h2, h3, _⟩ := onClose_heartbeat code online _ hm
    refine ⟨?_, Or.inl ⟨h1, h2⟩⟩
    simp only [applyEvent]
    rw [h3]
    exact hm.1
  | disconnect =>
    obtain ⟨h1, h2, h3, _⟩ := disconnect_heartbeat s hs
    refine ⟨?_, Or.inl ⟨h1, h2⟩⟩
    simp only [applyEvent]
    rw [h3]
    exact hs.1
  | offline => exact hs
  | connect online ctorOk =>
    exact timerConsistent_of_hbView s _ (applyEvent_hbView_frame _ s trivial) hs
  | message parsed =>
    exact timerConsistent_of_hbView s _ (applyEvent_hbView_frame _ s trivial) hs
  | error => exact timerConsistent_of_hbView s _ (applyEvent_hbView_frame _ s trivial) hs
  | send e message =>
    exact timerConsistent_of_hbView s _ (applyEvent_hbView_frame _ s trivial) hs
  | tick e isoNow =>
    exact timerConsistent_of_hbView s _ (applyEvent_hbView_frame _ s trivial) hs
  | online navOnline ctorOk =>
    exact timerConsistent_of_hbView s _ (applyEvent_hbView_frame _ s trivial) hs

theorem applyEvent_flag (ev : Event) (s : App) (hs : timerConsistent s)
    (hev : ev.detaches = false)
    (hiff : s.intervals ≠ [] ↔ s.isConnected = true) :
    ((applyEvent ev s).intervals ≠ [] ↔ (applyEvent ev s).isConnected = true) := by
  have hframe : hbView (applyEvent ev s) = hbView s →
      ((applyEvent ev s).intervals ≠ [] ↔ (applyEvent ev s).isConnected = true) := by
    intro h
    unfold hbView at h
    simp only [Prod.mk.injEq] at h
    rw [h.2.1, h.2.2.2]
    exact hiff
  cases ev with
  | opened target =>
    have hm := timerConsistent_of_hbView s _ (markReady_hbView target .OPEN s) hs
    obtain ⟨_, h2, _, h4⟩ := onOpen_heartbeat _ hm
    simp only [applyEvent]
    rw [h2, h4]
    simp
  | closed target code online =>
    have hm := timerConsistent_of_hbView s _ (markReady_hbView target .CLOSED s) hs
    obtain ⟨_, h2, _, h4⟩ := onClose_heartbeat code online _ hm
    simp only [applyEvent]
    rw [h2, h4]
    simp
  | disconnect => simp [Event.detaches] at hev
  | offline => simp [Event.detaches] at hev
  | connect online ctorOk => exact hframe (applyEvent_hbView_frame _ s trivial)
  | message parsed => exact hframe (applyEvent_hbView_frame _ s trivial)
  | error => exact hframe (applyEvent_hbView_frame _ s trivial)
  | send e message => exact hframe (applyEvent_hbView_frame _ s trivial)
  | tick e isoNow => exact hframe (applyEvent_hbView_frame _ s trivial)
  | online navOnline ctorOk => exact hframe (applyEvent_hbView_frame _ s trivial)

theorem reach_consistent (es : List Event) : ∀ s : App, timerConsistent s →
    timerConsistent (reach es s) := by
  induction es with
  | nil => intro s hs; exact hs
  | cons ev rest ih =>
    intro s hs
    exact ih (applyEvent ev s) (applyEvent_consistent ev s hs)

theorem reach_flag (es : List Event) : ∀ s : App, timerConsistent s →
    (∀ ev ∈ es, ev.detaches = false) →
    (s.intervals ≠ [] ↔ s.isConnected = true) →
    ((reach es s).intervals ≠ [] ↔ (reach es s).isConnected = true) := by
  induction es with
  | nil => intro s _ _ h; exact h
  | cons ev rest ih =>
    intro s hs hall hiff
    exact ih (applyEvent ev s) (applyEvent_consistent ev s hs)
      (fun e he => hall e (List.mem_cons_of_mem _ he))
      (applyEvent_flag ev s hs (hall ev (List.mem_cons_self _ _)) hiff)

theorem timerConsistent_initial : timerConsistent App.initial :=
  ⟨Nat.le_refl 1, Or.inl ⟨rfl, rfl⟩⟩

theorem applyEvent_restores (ev : Event) (s : App) (hs : timerConsistent s)
    (hev : ev.restores = true) :
    ((applyEvent ev s).intervals ≠ [] ↔ (applyEvent ev s).isConnected = true) := by
  cases ev with
  | opened target =>
    have hm := timerConsistent_of_hbView s _ (markReady_hbView target .OPEN s) hs
    obtain ⟨_, h2, _, h4⟩ := onOpen_heartbeat _ hm
    simp only [applyEvent]
    rw [h2, h4]
    simp
  | closed target code online =>
    have hm := timerConsistent_of_hbView s _ (markReady_hbView target .CLOSED s) hs
    obtain ⟨_, h2, _, h4⟩ := onClose_heartbeat code online _ hm
    simp only [applyEvent]
    rw [h2, h4]
    simp
  | connect online ctorOk => simp [Event.restores] at hev
  | message parsed => simp [Event.restores] at hev
  | error => simp [Event.restores] at hev
  | disconnect => simp [Event.restores] at hev
  | send e message => simp [Event.restores] at hev
  | tick e isoNow => simp [Event.restores] at hev
  | online navOnline ctorOk => simp [Event.restores] at hev
  | offline => simp [Event.restores] at hev

theorem reach_settled (es : List Event) : ∀ (s : App) (b : Bool), timerConsistent s →
    (b = true → (s.intervals ≠ [] ↔ s.isConnected = true)) →
    es.foldl (fun b ev => if ev.restores then true else if ev.detaches then false else b) b
      = true →
    ((reach es s).intervals ≠ [] ↔ (reach es s).isConnected = true) := by
  induction es with
  | nil =>
    intro s b _ hb hfold
    exact hb hfold
  | cons ev rest ih =>
    intro s b hs hb hfold
    simp only [List.foldl_cons] at hfold
    refine ih (applyEvent ev s) _ (applyEvent_consistent ev s hs) ?_ hfold
    intro hb2
    by_cases hr : ev.restores = true
    · exact applyEvent_restores ev s hs hr
    · by_cases hd : ev.detaches = true
      · simp [hr, hd] at hb2
      · have hd2 : ev.detaches = false := by simpa using hd
        simp only [hr, hd, if_false, Bool.false_eq_true] at hb2
        exact applyEvent_flag ev s hs hd2 (hb hb2)

theorem settled_of_no_detach (es : List Event) (hall : ∀ ev ∈ es, ev.detaches = false) :
    settled es = true := by
  have key : ∀ es : List Event, (∀ ev ∈ es, ev.detaches = false) →
      es.foldl (fun b ev => if ev.restores then true else if ev.detaches then false else b)
        true = true := by
    intro es
    induction es with
    | nil => intro _; rfl
    | cons ev rest ih =>
      intro h
      simp only [List.foldl_cons]
      have hd := h ev (List.mem_cons_self _ _)
      have hstep : (if ev.restores = true then true
          else if ev.detaches = true then false else true) = true := by
        simp [hd]
      rw [hstep]
      exact ih (fun e he => h e (List.mem_cons_of_mem _ he))
  exact key es hall

/-- C11 (amended): in every state reachable from the initial state by any
sequence of operations and events (connect, open, message, close, error,
disconnect, sendMessage, heartbeat tick, window online/offline) at most one
heartbeat timer exists, and it is the one whose handle the service keeps.  The
heartbeat timer exists if and only if `isConnected` is true in every reachable
state whose history, since the initial state or since the last open or close
event, holds no call of `disconnect` and no window event `offline`; every open
and every close event makes the equivalence hold, and every other operation
except these two keeps it.  A call of `disconnect` stops the timer and leaves
the flag, so the equivalence holds after it exactly when the flag was false
before; the `offline` listener clears the flag and leaves the timer, so the
equivalence holds after it exactly when no timer was running before. -/
theorem heartbeat_timer_invariant (es : List Event) :
    (reach es App.initial).intervals.length ≤ 1 ∧
    (reach es App.initial).intervals = (reach es App.initial).heartbeatInterval.toList ∧
    ((∀ ev ∈ es, ev.detaches = false) →
      ((reach es App.initial).intervals ≠ [] ↔ (reach es App.initial).isConnected = true)) ∧
    (settled es = true →
      ((reach es App.initial).intervals ≠ [] ↔ (reach es App.initial).isConnected = true)) ∧
    (∀ ev : Event, ev.detaches = false →
      ((reach es App.initial).intervals ≠ [] ↔ (reach es App.initial).isConnected = true) →
      ((reach (es ++ [ev]) App.initial).intervals ≠ []
        ↔ (reach (es ++ [ev]) App.initial).isConnected = true)) ∧
    (∀ target : Nat,
      (reach (es ++ [.opened target]) App.initial).intervals ≠ [] ∧
      (reach (es ++ [.opened target]) App.initial).isConnected = true) ∧
    (∀ (target code : Nat) (online : Bool),
      (reach (es ++ [.closed target code online]) App.initial).intervals = [] ∧
      (reach (es ++ [.closed target code online]) App.initial).isConnected = false) ∧
    ((reach (es ++ [.disconnect]) App.initial).intervals = [] ∧
      (reach (es ++ [.disconnect]) App.initial).isConnected
        = (reach es App.initial).isConnected ∧
      (((reach (es ++ [.disconnect]) App.initial).intervals ≠ []
          ↔ (reach (es ++ [.disconnect]) App.initial).isConnected = true)
        ↔ (reach es App.initial).isConnected = false)) ∧
    ((reach (es ++ [.offline]) App.initial).isConnected = false ∧
      (reach (es ++ [.offline]) App.initial).intervals = (reach es App.initial).intervals ∧
      (((reach (es ++ [.offline]) App.initial).intervals ≠ []
          ↔ (reach (es ++ [.offline]) App.initial).isConnected = true)
        ↔ (reach es App.initial).intervals = [])) := by
  have hc := reach_consistent es App.initial timerConsistent_initial
  have hsnoc : ∀ ev : Event, reach (es ++ [ev]) App.initial
      = applyEvent ev (reach es App.initial) := by
    intro ev
    simp [reach, List.foldl_append]
  refine ⟨?_, ?_, ?_, ?_, ?_, ?_, ?_, ?_, ?_⟩
  · obtain ⟨_, h | ⟨h, _, _, hi⟩⟩ := hc
    · rw [h.2]
      simp
    · rw [hi]
      simp
  · obtain ⟨_, h | ⟨h, _, hh, hi⟩⟩ := hc
    · rw [h.1, h.2]
      rfl
    · rw [hh, hi]
      rfl
  · intro hall
    exact reach_flag es App.initial timerConsistent_initial hall (by simp [App.initial])
  · intro hset
    exact reach_settled es App.initial true timerConsistent_initial
      (fun _ => by simp [App.initial]) hset
  · intro ev hev hiff
    rw [hsnoc]
    exact applyEvent_flag ev _ hc hev hiff
  · intro target
    rw [hsnoc]
    have hm := timerConsistent_of_hbView _ _
      (markReady_hbView target .OPEN (reach es App.initial)) hc
    obtain ⟨_, h2, _, h4⟩ := onOpen_heartbeat _ hm
    simp only [applyEvent]
    rw [h2, h4]
    simp
  · intro target code online
    rw [hsnoc]
    have hm := timerConsistent_of_hbView _ _
      (markReady_hbView target .CLOSED (reach es App.initial)) hc
    obtain ⟨_, h2, _, h4⟩ := onClose_heartbeat code online _ hm
    simp only [applyEvent]
    exact ⟨h2, h4⟩
  · rw [hsnoc]
    obtain ⟨_, h2, _, h4⟩ := disconnect_heartbeat _ hc
    simp only [applyEvent]
    refine ⟨h2, h4, ?_⟩
    rw [h2, h4]
    cases (reach es App.initial).isConnected <;> simp
  · rw [hsnoc]
    refine ⟨rfl, rfl, ?_⟩
    simp only [applyEvent, offlineListener]
    simp

/-- C11 (counterexample): after connect, the open event and a call of
`disconnect`, the flag `isConnected` is true while no heartbeat timer exists;
after connect, the open event and the window event `offline`, the heartbeat
timer (handle 1) exists while `isConnected` is false. -/
theorem heartbeat_timer_counterexample :
    ((reach [.connect true true, .opened 0, .disconnect] App.initial).isConnected = true ∧
      (reach [.connect true true, .opened 0, .disconnect] App.initial).heartbeatInterval = none ∧
      (reach [.connect true true, .opened 0, .disconnect] App.initial).intervals = []) ∧
    ((reach [.connect true true, .opened 0, .offline] App.initial).isConnected = false ∧
      (reach [.connect true true, .opened 0, .offline] App.initial).heartbeatInterval = some 1 ∧
      (reach [.connect true true, .opened 0, .offline] App.initial).intervals = [1]) := by
  decide

/-! ## C12: install and activate -/

theorem activate_fold (ns : List String) : ∀ cs : CacheStorage,
    ns.foldl (fun acc cacheName => if cacheWhitelist.contains cacheName then acc
        else cachesDelete acc cacheName) cs
      = cs.filter (fun c => c.name == CACHE_NAME || !ns.contains c.name) := by
  induction ns with
  | nil =>
    intro cs
    simp
  | cons n rest ih =>
    intro cs
    simp only [List.foldl_cons]
    rw [ih]
    by_cases hn : n = CACHE_NAME
    · subst hn
      have hw : cacheWhitelist.contains CACHE_NAME = true := by
        simp [cacheWhitelist]
      simp only [hw, if_true]
      apply List.filter_congr
      intro c _
      by_cases hc : c.name = CACHE_NAME
      · simp [hc]
      · simp [hc]
    · have hw : cacheWhitelist.contains n = false := by
        simp [cacheWhitelist, hn]
      simp only [hw, Bool.false_eq_true, if_false, cachesDelete, List.filter_filter]
      apply List.filter_congr
      intro c _
      by_cases hc : c.name = CACHE_NAME
      · have hcn : c.name ≠ n := by
          rw [hc]
          exact Ne.symm hn
        simp [hc, hcn, Ne.symm hn]
      · by_cases hcn : c.name = n
        · simp [hcn, hn]
        · simp [hc, hcn]

theorem activate_eq_filter (cs : CacheStorage) :
    activate cs = cs.filter (fun c => c.name == CACHE_NAME) := by
  unfold activate
  rw [activate_fold]
  apply List.filter_congr
  intro c hc
  have hmem : c.name ∈ cs.map (fun c => c.name) := List.mem_map_of_mem _ hc
  simp [hmem]

theorem install_names (responses : Option (List Response)) (cs : CacheStorage) :
    (install responses cs).2.map (fun c => c.name)
      = (cachesOpen cs CACHE_NAME).map (fun c => c.name) := by
  unfold install cachesAddAll
  cases responses with
  | none => rfl
  | some rs =>
    simp only [List.map_map]
    apply List.map_congr_left
    intro c _
    simp only [Function.comp]
    split_ifs <;> rfl

theorem cachesOpen_names (cs : CacheStorage) (hnodup : (cs.map (fun c => c.name)).Nodup) :
    ((cachesOpen cs CACHE_NAME).map (fun c => c.name)).Nodup ∧
    CACHE_NAME ∈ (cachesOpen cs CACHE_NAME).map (fun c => c.name) := by
  unfold cachesOpen
  by_cases h : cs.any (fun c => c.name == CACHE_NAME) = true
  · rw [if_pos h]
    refine ⟨hnodup, ?_⟩
    obtain ⟨c, hc, hname⟩ := List.any_eq_true.mp h
    have : c.name = CACHE_NAME := by simpa using hname
    rw [← this]
    exact List.mem_map_of_mem _ hc
  · rw [if_neg h]
    simp only [List.map_append, List.map_cons, List.map_nil]
    have hnot : CACHE_NAME ∉ cs.map (fun c => c.name) := by
      intro hmem
      obtain ⟨c, hc, hname⟩ := List.mem_map.mp hmem
      apply h
      exact List.any_eq_true.mpr ⟨c, hc, by simpa using hname⟩
    constructor
    · rw [List.nodup_append]
      refine ⟨hnodup, List.nodup_singleton _, ?_⟩
      intro a ha hb
      rw [List.mem_singleton.mp hb] at ha
      exact hnot ha
    · simp

theorem filter_names_singleton (name : String) : ∀ l : List String, l.Nodup → name ∈ l →
    l.filter (fun n => n == name) = [name] := by
  intro l
  induction l with
  | nil => intro _ h; simp at h
  | cons a rest ih =>
    intro hnodup hmem
    rw [List.nodup_cons] at hnodup
    by_cases ha : a = name
    · subst ha
      have hrest : rest.filter (fun n => n == a) = [] := by
        rw [List.filter_eq_nil_iff]
        intro b hb hba
        have : b = a := by simpa using hba
        rw [this] at hb
        exact hnodup.1 hb
      simp [List.filter_cons, hrest]
    · have hmem2 : name ∈ rest := by
        rcases List.mem_cons.mp hmem with h | h
        · exact absurd h.symm ha
        · exact h
      simp [List.filter_cons, ha, ih hnodup.2 hmem2]

theorem installActivate_names (responses : Option (List Response)) (cs : CacheStorage)
    (hnodup : (cs.map (fun c => c.name)).Nodup) :
    (installActivate responses cs).map (fun c => c.name) = [CACHE_NAME] := by
  unfold installActivate
  rw [activate_eq_filter]
  obtain ⟨h1, h2⟩ := cachesOpen_names cs hnodup
  rw [← install_names responses cs] at h1 h2
  have hmap : ((install responses cs).2.filter (fun c => c.name == CACHE_NAME)).map
      (fun c => c.name)
      = ((install responses cs).2.map (fun c => c.name)).filter (fun n => n == CACHE_NAME) := by
    rw [List.filter_map]
    rfl
  rw [hmap]
  exact filter_names_singleton CACHE_NAME _ h1 h2

/-- C12: for every initial Cache Storage (cache names pairwise distinct) and
whatever the precaching requests return, after the install/activate sequence
the cache names are exactly `[CACHE_NAME]`: the current cache exists, once, and
no cache of another name is left.  Running the sequence a second time, again
with any outcome of the precaching, gives exactly the same names: one current
cache and no stale one. -/
theorem install_activate_idempotent (cs : CacheStorage) (r1 r2 : Option (List Response))
    (hnodup : (cs.map (fun c => c.name)).Nodup) :
    (installActivate r1 cs).map (fun c => c.name) = [CACHE_NAME] ∧
    (∀ c ∈ installActivate r1 cs, c.name = CACHE_NAME) ∧
    ((installActivate r1 cs).filter (fun c => c.name != CACHE_NAME)) = [] ∧
    ((installActivate r1 cs).filter (fun c => c.name == CACHE_NAME)).length = 1 ∧
    (installActivate r2 (installActivate r1 cs)).map (fun c => c.name) = [CACHE_NAME] ∧
    ((installActivate r2 (installActivate r1 cs)).filter
      (fun c => c.name != CACHE_NAME)) = [] ∧
    ((installActivate r2 (installActivate r1 cs)).filter
      (fun c => c.name == CACHE_NAME)).length = 1 := by
  have h1 := installActivate_names r1 cs hnodup
  have hnodup2 : ((installActivate r1 cs).map (fun c => c.name)).Nodup := by
    rw [h1]
    exact List.nodup_singleton _
  have h2 := installActivate_names r2 (installActivate r1 cs) hnodup2
  have key : ∀ l : CacheStorage, l.map (fun c => c.name) = [CACHE_NAME] →
      (∀ c ∈ l, c.name = CACHE_NAME) ∧ l.filter (fun c => c.name != CACHE_NAME) = [] ∧
      (l.filter (fun c => c.name == CACHE_NAME)).length = 1 := by
    intro l hl
    have hall : ∀ c ∈ l, c.name = CACHE_NAME := by
      intro c hc
      have : c.name ∈ l.map (fun c => c.name) := List.mem_map_of_mem _ hc
      rw [hl] at this
      exact List.mem_singleton.mp this
    refine ⟨hall, ?_, ?_⟩
    · rw [List.filter_eq_nil_iff]
      intro c hc
      simp [hall c hc]
    · have hfull : l.filter (fun c => c.name == CACHE_NAME) = l := by
        rw [List.filter_eq_self]
        intro c hc
        simp [hall c hc]
      rw [hfull]
      have := congrArg List.length hl
      simpa using this
  obtain ⟨k1, k2, k3⟩ := key _ h1
  obtain ⟨_, k5, k6⟩ := key _ h2
  exact ⟨h1, k1, k2, k3, h2, k5, k6⟩

/-- Witness for C12: from a Cache Storage holding an older generation and an
unrelated cache, with every precaching request answered by a 200 response, one
cache named `CACHE_NAME` is left. -/
theorem install_activate_idempotent_witness :
    (installActivate
        (some (List.replicate 7 ⟨200, "basic", some "text/html", .text "asset"⟩))
        [⟨"real-time-app-cache-v0", []⟩, ⟨"fonts", []⟩]).map
      (fun c => c.name) = [CACHE_NAME] :=
  (install_activate_idempotent [⟨"real-time-app-cache-v0", []⟩, ⟨"fonts", []⟩]
    (some (List.replicate 7 ⟨200, "basic", some "text/html", .text "asset"⟩)) none
    (by decide)).1

end RealtimeFrontend
